import Mathlib

/-!
A shallow embedding of the core of the `tracer` distributed-tracing
system (client-side tracer, propagation codecs, batching shipper, and the
PostgreSQL storage engine), together with theorems settling the claims
about its specification.

Go strings are byte sequences; we model them as lists of byte values
(`Str := List Nat`).  Go `time.Time` values are modelled as `Int`
nanoseconds since the epoch, with `0` playing the role of the zero time
(`IsZero`).  Machine integers (`uint64`, `int64`, `int32`) are modelled
as `Nat`/`Int` with explicit wrap-around where the code relies on it.
-/

set_option maxHeartbeats 1000000
set_option maxRecDepth 100000

namespace Tracer

/-- Go strings are byte sequences. -/
abbrev Str := List Nat

/-- Convert a Lean string literal (ASCII in all uses below) into the
byte-string model. -/
def str (x : String) : Str := x.data.map Char.toNat

/-- Byte-wise lower-casing, as `strings.ToLower` acts on the ASCII
subset (all keys the codecs touch are ASCII). -/
def lcByte (b : Nat) : Nat := if 65 ≤ b ∧ b ≤ 90 then b + 32 else b

/-- `strings.ToLower`, byte-wise on ASCII data. -/
def goToLower (s : Str) : Str := s.map lcByte

/-- Association-list lookup, the read side of a Go `map[string]string`. -/
def alGet (m : List (Str × Str)) (k : Str) : Option Str :=
  match m with
  | [] => none
  | (k', v) :: rest => if k' = k then some v else alGet rest k

/-- Go map insert `m[k] = v`: replace the binding if the key is present,
append it otherwise. -/
def alSet (m : List (Str × Str)) (k : Str) (v : Str) : List (Str × Str) :=
  match m with
  | [] => [(k, v)]
  | (k', v') :: rest => if k' = k then (k, v) :: rest else (k', v') :: alSet rest k v

/-- The keys of an association list. -/
def alKeys (m : List (Str × Str)) : List Str := m.map Prod.fst

/-- One byte of the big-endian encoding. -/
def be8Byte (x : Nat) (i : Nat) : Nat := x / 2 ^ (8 * (7 - i)) % 256

/-- `binary.BigEndian.PutUint64`: the eight big-endian bytes of a
64-bit value. -/
def be8 (x : Nat) : List Nat :=
  [be8Byte x 0, be8Byte x 1, be8Byte x 2, be8Byte x 3,
   be8Byte x 4, be8Byte x 5, be8Byte x 6, be8Byte x 7]

/-- `binary.BigEndian.Uint64`: decode eight big-endian bytes. -/
def beUint64 (b : List Nat) : Nat :=
  match b with
  | b0 :: b1 :: b2 :: b3 :: b4 :: b5 :: b6 :: b7 :: _ =>
      ((((((b0 * 256 + b1) * 256 + b2) * 256 + b3) * 256 + b4) * 256 + b5) * 256 + b6) * 256 + b7
  | _ => 0

/-- Reading a `uint64` into a Go `int` (64-bit): values at or above
`2^63` wrap to negative numbers. -/
def toInt64 (u : Nat) : Int :=
  if u < 2 ^ 63 then (u : Int) else (u : Int) - 2 ^ 64

/-- The decimal digits of `n`, most significant first, as ASCII bytes
(`strconv.FormatUint(n, 10)`). -/
def formatUint10 (n : Nat) : Str :=
  if n = 0 then [48] else (Nat.digits 10 n).reverse.map (· + 48)

/-- One decimal digit from its ASCII byte. -/
def digitOfByte (b : Nat) : Option Nat :=
  if 48 ≤ b ∧ b ≤ 57 then some (b - 48) else none

/-- The digit loop of `strconv.ParseUint`. -/
def parseDigitsGo : Str → Nat → Option Nat
  | [], acc => some acc
  | c :: rest, acc =>
      match digitOfByte c with
      | none => none
      | some d => parseDigitsGo rest (acc * 10 + d)

/-- `strconv.ParseUint(s, 10, 64)`, on the success path: all bytes are
decimal digits, the string is non-empty, and the value fits in 64 bits.
Failures yield `none`. -/
def goParseUint10 (s : Str) : Option Nat :=
  match s with
  | [] => none
  | _ =>
    match parseDigitsGo s 0 with
    | none => none
    | some v => if v < 2 ^ 64 then some v else none

/-- The ASCII byte of a hex digit (lowercase, as `hex.EncodeToString`
produces). -/
def hexDigit (n : Nat) : Nat := if n < 10 then n + 48 else n - 10 + 97

/-- Decode one hex-digit byte. -/
def hexVal (b : Nat) : Option Nat :=
  if 48 ≤ b ∧ b ≤ 57 then some (b - 48)
  else if 97 ≤ b ∧ b ≤ 102 then some (b - 97 + 10)
  else if 65 ≤ b ∧ b ≤ 70 then some (b - 65 + 10)
  else none

/-- `idToHex`: the 16 lowercase hex characters of the big-endian bytes
of an ID. -/
def idToHex (id : Nat) : Str :=
  (be8 id).flatMap fun b => [hexDigit (b / 16), hexDigit (b % 16)]

/-- `hex.DecodeString`, on the success path: pairs of hex digits. -/
def decodeHex (s : Str) : Option (List Nat) :=
  match s with
  | [] => some []
  | [_] => none
  | c1 :: c2 :: rest =>
      match hexVal c1, hexVal c2, decodeHex rest with
      | some h, some l, some bs => some ((h * 16 + l) :: bs)
      | _, _, _ => none

/-- `idFromHex`: decode a hex string and read the first eight bytes
big-endian.  The Go code ignores the decode error; inputs that do not
decode to at least eight bytes make it panic, which no theorem below
reaches -- those inputs yield `0` here. -/
def idFromHex (s : Str) : Nat :=
  match decodeHex s with
  | some b => if 8 ≤ b.length then beUint64 b else 0
  | none => 0

/-! ## Data model: SpanContext, values, spans -/

/-- The errors surfaced by the propagation and dispatch paths.
`eof` is `io.EOF`, the one generic (non-opentracing) error the binary
extracter can return on the inputs modelled here. -/
inductive OTErr where
  | invalidCarrier
  | unsupportedFormat
  | spanContextNotFound
  | invalidSpanContext
  | eof
deriving DecidableEq, Repr

/-- `SpanContext` from `propagation.go`.  IDs and flags are `uint64`
values. -/
structure SpanContext where
  TraceID : Nat
  ParentID : Nat
  SpanID : Nat
  Flags : Nat
  Baggage : List (Str × Str)
deriving DecidableEq, Repr

/-- A dynamically-typed tag/log value, restricted to the kinds the
client accepts (`valueType`): nil, booleans, numbers and strings.
Integers stand in for Go's number kinds. -/
inductive Value where
  | vNull
  | vBool (b : Bool)
  | vInt (n : Int)
  | vStr (s : Str)
deriving DecidableEq, Repr

/-- `valueType`'s verdict: every representable `Value` is a permitted
kind (nil, boolean, number, string). -/
def valueTypeOK (_ : Value) : Bool := true

/-- `opentracing.LogData`. -/
structure LogData where
  Event : Str
  Payload : Value
  Timestamp : Int
deriving DecidableEq, Repr

/-- `RawSpan`: the stored form of a span. -/
structure RawSpan where
  ctx : SpanContext
  ServiceName : Str
  OperationName : Str
  StartTime : Int
  FinishTime : Int
  Tags : List (Str × Value)
  Logs : List LogData
deriving DecidableEq, Repr

/-- `FlagSampled = 1 << iota`. -/
def FlagSampled : Nat := 1

/-- `sp.sampled()`: whether the sampled bit of the flags is set. -/
def sampledRaw (sp : RawSpan) : Bool := sp.ctx.Flags &&& FlagSampled > 0

/-- `RawRelation`. -/
structure RawRelation where
  ParentID : Nat
  ChildID : Nat
  Kind : Str
deriving DecidableEq, Repr

/-- `RawTrace`. -/
structure RawTrace where
  TraceID : Nat
  Spans : List RawSpan
  Relations : List RawRelation
deriving DecidableEq, Repr

/-! ## Propagation codecs -/

/-- The carrier key `tracer-traceid`. -/
def keyTraceID : Str := str (r"tracer-traceid")

/-- The carrier key `tracer-spanid`. -/
def keySpanID : Str := str (r"tracer-spanid")

/-- The carrier key `tracer-parentspanid`. -/
def keyParentSpanID : Str := str (r"tracer-parentspanid")

/-- The carrier key `tracer-flags`. -/
def keyFlags : Str := str (r"tracer-flags")

/-- The carrier key prefix for baggage, `tracer-baggage-`. -/
def keyBaggage : Str := str (r"tracer-baggage-")

/-- The body of `textInjecter`: the writes it performs on a text-map
carrier (a Go `map[string]string`). -/
def textInjecterC (sm : SpanContext) (carrier : List (Str × Str)) : List (Str × Str) :=
  let c1 := alSet carrier keyTraceID (idToHex sm.TraceID)
  let c2 := alSet c1 keySpanID (idToHex sm.SpanID)
  let c3 := alSet c2 keyParentSpanID (idToHex sm.ParentID)
  let c4 := alSet c3 keyFlags (formatUint10 sm.Flags)
  sm.Baggage.foldl (fun c kv => alSet c (keyBaggage ++ kv.1) kv.2) c4

/-- One step of `textExtracter`'s `ForeachKey` callback.  The `Flags`
parse models `strconv.ParseUint` on its success path and yields `0` on
failure (the Go code discards the error; its overflow path is not
reached by any theorem below). -/
def textProcessKey (ctx : SpanContext) (key : Str) (val : Str) : SpanContext :=
  let lower := goToLower key
  if lower = keyTraceID then { ctx with TraceID := idFromHex val }
  else if lower = keySpanID then { ctx with SpanID := idFromHex val }
  else if lower = keyParentSpanID then { ctx with ParentID := idFromHex val }
  else if lower = keyFlags then { ctx with Flags := (goParseUint10 val).getD 0 }
  else if keyBaggage.isPrefixOf lower then
    { ctx with Baggage := alSet ctx.Baggage (key.drop keyBaggage.length) val }
  else ctx

/-- The body of `textExtracter`: fold the callback over the carrier's
entries, then reject a zero TraceID. -/
def textExtracterC (entries : List (Str × Str)) : Except OTErr SpanContext :=
  let ctx := entries.foldl (fun c kv => textProcessKey c kv.1 kv.2)
    { TraceID := 0, ParentID := 0, SpanID := 0, Flags := 0, Baggage := [] }
  if ctx.TraceID = 0 then .error .spanContextNotFound else .ok ctx

/-- The bytes `binaryInjecter` writes for one baggage entry:
KeyLen(8) ValueLen(8) KeyBytes ValueBytes. -/
def entryBytes (kv : Str × Str) : List Nat :=
  be8 kv.1.length ++ be8 kv.2.length ++ kv.1 ++ kv.2

/-- The full byte stream `binaryInjecter` writes:
TraceID(8) SpanID(8) ParentID(8) Flags(8) N(8), then the entries. -/
def binaryInjecterBytes (sm : SpanContext) : List Nat :=
  be8 sm.TraceID ++ be8 sm.SpanID ++ be8 sm.ParentID ++ be8 sm.Flags ++
    be8 sm.Baggage.length ++ sm.Baggage.flatMap entryBytes

/-- The two error values `io.ReadFull` can produce on a byte reader. -/
inductive IOErr where
  | eof
  | unexpectedEOF
deriving DecidableEq, Repr

/-- `io.ReadFull` over an in-memory reader holding `r`: reading `n`
bytes consumes them; zero available bytes yield `io.EOF`, a short read
yields `io.ErrUnexpectedEOF`. -/
def ioReadFull (r : List Nat) (n : Nat) : Except IOErr (List Nat × List Nat) :=
  if n ≤ r.length then .ok (r.take n, r.drop n)
  else if r.length = 0 then .error .eof
  else .error .unexpectedEOF

/-- The error mapping each `ReadFull` call site in `binaryExtracter`
applies: `ErrUnexpectedEOF` becomes "span context not found", any other
error (here `io.EOF`) is returned as-is. -/
def mapReadErr (e : IOErr) : OTErr :=
  match e with
  | .unexpectedEOF => .spanContextNotFound
  | .eof => .eof

/-- The baggage loop of `binaryExtracter`, iterated `count` times:
read the 16-byte entry header, validate KeyLen > 0 and ValueLen ≥ 0 as
signed 64-bit values, read the entry body, insert into the baggage
map. -/
def readBaggage (input : List Nat) (baggage : List (Str × Str)) :
    Nat → Except OTErr (List (Str × Str))
  | 0 => .ok baggage
  | i + 1 =>
    match ioReadFull input 16 with
    | .error e => .error (mapReadErr e)
    | .ok (hdr, rest) =>
      let kl := toInt64 (beUint64 hdr)
      let vl := toInt64 (beUint64 (hdr.drop 8))
      if kl ≤ 0 ∨ vl < 0 then .error .spanContextNotFound
      else
        match ioReadFull rest (kl.toNat + vl.toNat) with
        | .error e => .error (mapReadErr e)
        | .ok (b2, rest2) =>
            readBaggage rest2 (alSet baggage (b2.take kl.toNat) (b2.drop kl.toNat)) i

/-- The body of `binaryExtracter` over the byte stream: read the
40-byte header, then the baggage entries. -/
def binaryExtracterBytes (input : List Nat) : Except OTErr SpanContext :=
  match ioReadFull input 40 with
  | .error e => .error (mapReadErr e)
  | .ok (b, rest) =>
    let traceID := beUint64 b
    let spanID := beUint64 (b.drop 8)
    let parentID := beUint64 (b.drop 16)
    let flags := beUint64 (b.drop 24)
    let n := beUint64 (b.drop 32)
    match readBaggage rest [] n with
    | .error e => .error e
    | .ok bag =>
        .ok { TraceID := traceID, ParentID := parentID, SpanID := spanID,
              Flags := flags, Baggage := bag }

/-- The well-formedness a `SpanContext` has in the Go program: IDs,
flags and the baggage map size fit in `uint64`, string lengths fit in
a non-negative `int` (63 bits), and — being a Go map — the baggage has
no duplicate keys. -/
def ctxWF (c : SpanContext) : Prop :=
  c.TraceID < 2 ^ 64 ∧ c.SpanID < 2 ^ 64 ∧ c.ParentID < 2 ^ 64 ∧ c.Flags < 2 ^ 64 ∧
  c.Baggage.length < 2 ^ 64 ∧
  (∀ kv ∈ c.Baggage, kv.1.length < 2 ^ 63 ∧ kv.2.length < 2 ^ 63) ∧
  (alKeys c.Baggage).Nodup

instance (c : SpanContext) : Decidable (ctxWF c) := by
  unfold ctxWF
  infer_instance

/-- The byte size of one encoded baggage entry. -/
def entrySize (kv : Str × Str) : Nat := 16 + kv.1.length + kv.2.length

/-- The offsets (relative to the start of the entry list) at which
`binaryExtracter` starts one of its `ReadFull` calls while decoding a
list of baggage entries: the 16-byte entry header and the entry body,
for each entry in turn. -/
def relBoundaries : List (Str × Str) → List Nat
  | [] => []
  | kv :: rest => 0 :: 16 :: (relBoundaries rest).map (· + entrySize kv)

/-- The offsets within a full binary payload at which `binaryExtracter`
starts a `ReadFull` call: the 40-byte header at offset 0, then the
entry reads. -/
def payloadBoundaries (c : SpanContext) : List Nat :=
  0 :: (relBoundaries c.Baggage).map (· + 40)

/-! ## Carriers, formats and the Tracer's Inject/Extract dispatch -/

/-- The registered propagation formats, plus unknown ones. -/
inductive Format where
  | textMap
  | binary
  | custom (n : Nat)
deriving DecidableEq, Repr

/-- A carrier: a text map, a byte buffer (`io.Writer`/`io.Reader`), or
an object of some other type. -/
inductive Carrier where
  | text (entries : List (Str × Str))
  | bin (buf : List Nat)
  | other
deriving DecidableEq, Repr

/-- `textInjecter`: requires a `TextMapWriter` carrier. -/
def textInjecter (sm : SpanContext) (carrier : Carrier) : Except OTErr Carrier :=
  match carrier with
  | .text entries => .ok (.text (textInjecterC sm entries))
  | _ => .error .invalidCarrier

/-- `binaryInjecter`: requires an `io.Writer` carrier; the write
appends the payload to the buffer. -/
def binaryInjecter (sm : SpanContext) (carrier : Carrier) : Except OTErr Carrier :=
  match carrier with
  | .bin buf => .ok (.bin (buf ++ binaryInjecterBytes sm))
  | _ => .error .invalidCarrier

/-- `textExtracter`: requires a `TextMapReader` carrier. -/
def textExtracter (carrier : Carrier) : Except OTErr SpanContext :=
  match carrier with
  | .text entries => textExtracterC entries
  | _ => .error .invalidCarrier

/-- `binaryExtracter`: requires an `io.Reader` carrier. -/
def binaryExtracter (carrier : Carrier) : Except OTErr SpanContext :=
  match carrier with
  | .bin buf => binaryExtracterBytes buf
  | _ => .error .invalidCarrier

/-- The initial `injecters` registry. -/
def injecters (format : Format) : Option (SpanContext → Carrier → Except OTErr Carrier) :=
  match format with
  | .textMap => some textInjecter
  | .binary => some binaryInjecter
  | .custom _ => none

/-- The initial `extracters` registry. -/
def extracters (format : Format) : Option (Carrier → Except OTErr SpanContext) :=
  match format with
  | .textMap => some textExtracter
  | .binary => some binaryExtracter
  | .custom _ => none

/-- An `opentracing.SpanContext` value of arbitrary dynamic type: either
this package's `SpanContext` or some foreign implementation. -/
inductive OTSpanContext where
  | ours (c : SpanContext)
  | foreign
deriving DecidableEq, Repr

/-- `Tracer.Inject`: the dynamic-type check on the span context comes
first, then the format lookup, then the injecter runs.  The returned
carrier is the carrier as left by the call (unchanged whenever an error
is returned before or by the injecter). -/
def Inject (sm : OTSpanContext) (format : Format) (carrier : Carrier) :
    Option OTErr × Carrier :=
  match sm with
  | .foreign => (some .invalidSpanContext, carrier)
  | .ours c =>
    match injecters format with
    | none => (some .unsupportedFormat, carrier)
    | some inj =>
      match inj c carrier with
      | .error e => (some e, carrier)
      | .ok c' => (none, c')

/-- `Tracer.Extract`: format lookup, then the extracter runs. -/
def Extract (format : Format) (carrier : Carrier) : Except OTErr SpanContext :=
  match extracters format with
  | none => .error .unsupportedFormat
  | some ext => ext carrier

/-! ## Tracer: samplers and StartSpan -/

/-- A sampler maps a span ID to a decision.  (The probabilistic and
rate samplers draw on wall-clock/random state; the claims only need the
decision function.) -/
def Sampler := Nat → Bool

/-- `NewConstSampler`. -/
def NewConstSampler (decision : Bool) : Sampler := fun _ => decision

/-- The `Tracer` as far as `StartSpan` reads it. -/
structure TracerT where
  ServiceName : Str
  Sampler : Sampler

/-- A parent reference in start options: the `Referee` field of the
first `opentracing.SpanReference`. -/
structure Reference where
  Referee : OTSpanContext

/-- `opentracing.StartSpanOptions` after applying all option values. -/
structure StartSpanOptions where
  StartTime : Int
  References : List Reference
  Tags : List (Str × Value)

/-- `Tracer.StartSpan`, with the generated ID and the current time
passed explicitly.  Returns `none` on the panic path (a parent
reference whose dynamic type is not `SpanContext`). -/
def StartSpan (tr : TracerT) (operationName : Str) (sopts : StartSpanOptions)
    (id : Nat) (now : Int) : Option RawSpan :=
  let startTime := if sopts.StartTime = 0 then now else sopts.StartTime
  let base : RawSpan :=
    { ctx := { SpanID := id, TraceID := id, ParentID := 0, Flags := 0, Baggage := [] },
      ServiceName := tr.ServiceName, OperationName := operationName,
      StartTime := startTime, FinishTime := 0, Tags := [], Logs := [] }
  match sopts.References with
  | ref :: _ =>
    match ref.Referee with
    | .foreign => none
    | .ours parent =>
        some { base with
               ctx := { base.ctx with
                        ParentID := parent.SpanID
                        TraceID := parent.TraceID
                        Flags := parent.Flags }
               Tags := sopts.Tags }
  | [] =>
      let flags := if tr.Sampler id then base.ctx.Flags ||| FlagSampled else base.ctx.Flags
      some { base with ctx := { base.ctx with Flags := flags }, Tags := sopts.Tags }

/-- The tag key `sampling.priority` (`ext.SamplingPriority`). -/
def samplingPriorityKey : Str := str (r"sampling.priority")

/-! ## Span mutators -/

/-- `Span.SetOperationName`: updates the name (no sampling check in the
code). -/
def SetOperationName (sp : RawSpan) (name : Str) : RawSpan :=
  { sp with OperationName := name }

/-- Go map insert for the span's tag map. -/
def tagSet (m : List (Str × Value)) (k : Str) (v : Value) : List (Str × Value) :=
  match m with
  | [] => [(k, v)]
  | (k', v') :: rest => if k' = k then (k, v) :: rest else (k', v') :: tagSet rest k v

/-- `Span.SetTag`: a no-op when the span is not sampled or the value's
kind is not permitted. -/
def SetTag (sp : RawSpan) (key : Str) (value : Value) : RawSpan :=
  if ¬sampledRaw sp then sp
  else if ¬valueTypeOK value then sp
  else { sp with Tags := tagSet sp.Tags key value }

/-- `Span.log` (and `Span.Log`, which only adds locking): a no-op when
not sampled or the payload kind is not permitted; fills a zero
timestamp with "now". -/
def logSpan (sp : RawSpan) (data : LogData) (now : Int) : RawSpan :=
  if ¬sampledRaw sp then sp
  else if ¬valueTypeOK data.Payload then sp
  else
    let data := if data.Timestamp = 0 then { data with Timestamp := now } else data
    { sp with Logs := sp.Logs ++ [data] }

/-- `Span.LogEvent`. -/
def LogEvent (sp : RawSpan) (event : Str) (now : Int) : RawSpan :=
  if ¬sampledRaw sp then sp
  else logSpan sp { Event := event, Payload := .vNull, Timestamp := 0 } now

/-- `Span.LogEventWithPayload`. -/
def LogEventWithPayload (sp : RawSpan) (event : Str) (payload : Value) (now : Int) : RawSpan :=
  if ¬sampledRaw sp then sp
  else logSpan sp { Event := event, Payload := payload, Timestamp := 0 } now

/-- `opentracing.FinishOptions`. -/
structure FinishOptions where
  FinishTime : Int
  BulkLogData : List LogData

/-- `Span.FinishWithOptions`: the returned list is the spans handed to
the tracer's storer (empty when not sampled). -/
def FinishWithOptions (sp : RawSpan) (opts : FinishOptions) (now : Int) :
    RawSpan × List RawSpan :=
  if ¬sampledRaw sp then (sp, [])
  else
    let ft := if opts.FinishTime = 0 then now else opts.FinishTime
    let sp1 := { sp with FinishTime := ft }
    let sp2 := opts.BulkLogData.foldl (fun s l => logSpan s l now) sp1
    (sp2, [sp2])

/-- `Span.Finish`. -/
def Finish (sp : RawSpan) (now : Int) : RawSpan × List RawSpan :=
  if ¬sampledRaw sp then (sp, [])
  else FinishWithOptions sp { FinishTime := 0, BulkLogData := [] } now

/-! ## The gRPC shipper -/

/-- The shipper state `Store` touches: the intake channel (capacity
`2*QueueSize`) and the two Prometheus counters. -/
structure GRPC where
  ch : List RawSpan
  chCap : Nat
  stored : Nat
  dropped : Nat
deriving DecidableEq, Repr

/-- `NewGRPC` with queue size `queueSize`: intake channel of capacity
`2*queueSize`, both counters at zero. -/
def NewGRPC (queueSize : Nat) : GRPC :=
  { ch := [], chCap := 2 * queueSize, stored := 0, dropped := 0 }

/-- `GRPC.Store`: a non-blocking send on the intake channel.  On
success the span is enqueued and the stored counter is bumped; when the
channel is full the dropped counter is bumped.  Always returns without
error (`none`). -/
def GRPCStore (g : GRPC) (sp : RawSpan) : GRPC × Option OTErr :=
  if g.ch.length < g.chCap then
    ({ g with ch := g.ch ++ [sp], stored := g.stored + 1 }, none)
  else
    ({ g with dropped := g.dropped + 1 }, none)

/-- Submitting a sequence of spans to `Store` while the worker is not
draining the channel. -/
def storeAll (g : GRPC) (sps : List RawSpan) : GRPC :=
  sps.foldl (fun g sp => (GRPCStore g sp).1) g

/-! ## PostgreSQL storage engine

The relational state is modelled relationally: the `spans` table (whose
`id` is the primary key), the `tags` table and the `relations` table,
rows kept in insertion order.  `tstzrange` values are inclusive
start/end pairs of nanosecond timestamps. -/

/-- A `tstzrange` value as the storage uses it. -/
structure TimeRange where
  lo : Int
  hi : Int
deriving DecidableEq, Repr

/-- A row of the `spans` table. -/
structure SpanRow where
  id : Int
  trace_id : Int
  time : TimeRange
  service_name : Str
  operation_name : Str
deriving DecidableEq, Repr

/-- A row of the `tags` table (`time` is `NULL` for tags, set for
logs). -/
structure TagRow where
  trace_id : Int
  span_id : Int
  key : Str
  value : Str
  time : Option Int
deriving DecidableEq, Repr

/-- A row of the `relations` table. -/
structure RelRow where
  span1_id : Int
  span2_id : Int
  kind : Str
deriving DecidableEq, Repr

/-- The database state. -/
structure DB where
  spans : List SpanRow
  tags : List TagRow
  relations : List RelRow
deriving DecidableEq, Repr

/-- The empty database. -/
def emptyDB : DB := { spans := [], tags := [], relations := [] }

/-- Reading a Go `int64` back as `uint64` (`uint64(spanID)`). -/
def fromInt64 (i : Int) : Nat :=
  if 0 ≤ i then i.toNat else (i + 2 ^ 64).toNat

/-- The `upsertSpan` statement: `INSERT ... ON CONFLICT (id) DO UPDATE
SET time, service_name, operation_name` (the conflict arm does not
touch `trace_id`). -/
def upsertSpanRows (rows : List SpanRow) (id trace : Int) (time : TimeRange)
    (svc op : Str) : List SpanRow :=
  match rows with
  | [] => [{ id := id, trace_id := trace, time := time, service_name := svc, operation_name := op }]
  | r :: rest =>
      if r.id = id then
        { r with time := time, service_name := svc, operation_name := op } :: rest
      else r :: upsertSpanRows rest id trace time svc op

/-- The `insertParentSpan` statement: `INSERT ... ON CONFLICT (id) DO
NOTHING` with empty service and operation names. -/
def insertSpanIfAbsent (rows : List SpanRow) (id trace : Int) (time : TimeRange) :
    List SpanRow :=
  if rows.any (fun r => r.id = id) then rows
  else rows ++ [{ id := id, trace_id := trace, time := time, service_name := [], operation_name := [] }]

/-- `fmt.Sprintf` of a non-nil tag/log value, with the surrounding
`if v != nil` check: nil values are stored as the empty string. -/
def storeValue (v : Value) : Str :=
  match v with
  | .vNull => []
  | .vBool b => if b then str (r"true") else str (r"false")
  | .vInt n => if n < 0 then 45 :: formatUint10 n.natAbs else formatUint10 n.toNat
  | .vStr s => s

/-- `Storage.Store`: upsert the span row; when the span has a parent,
upsert a placeholder parent span and a placeholder trace-root span and
insert a `parent` relation; then append one tags row per tag (NULL
time) and per log entry (the log's timestamp). -/
def Store (db : DB) (sp : RawSpan) : DB :=
  let sid := toInt64 sp.ctx.SpanID
  let tid := toInt64 sp.ctx.TraceID
  let db1 : DB := { db with
    spans := upsertSpanRows db.spans sid tid
      { lo := sp.StartTime, hi := sp.FinishTime } sp.ServiceName sp.OperationName }
  let db2 : DB :=
    if sp.ctx.ParentID ≠ 0 then
      let s1 := insertSpanIfAbsent db1.spans (toInt64 sp.ctx.ParentID) tid { lo := 0, hi := 0 }
      let s2 := insertSpanIfAbsent s1 tid tid { lo := sp.StartTime, hi := sp.FinishTime }
      { db1 with
        spans := s2
        relations := db1.relations ++
          [{ span1_id := toInt64 sp.ctx.ParentID, span2_id := sid, kind := str (r"parent") }] }
    else db1
  let tagRows := sp.Tags.map fun kv =>
    ({ trace_id := tid, span_id := sid, key := kv.1, value := storeValue kv.2, time := none } : TagRow)
  let logRows := sp.Logs.map fun l =>
    ({ trace_id := tid
       span_id := sid
       key := l.Event
       value := storeValue l.Payload
       time := some l.Timestamp } : TagRow)
  { db2 with tags := db2.tags ++ tagRows ++ logRows }

/-- Storing a list of spans one `Store` call at a time. -/
def storeList (db : DB) (sps : List RawSpan) : DB :=
  sps.foldl Store db

/-- PostgreSQL ordering on range values restricted to the ranges the
storage writes: lower bound first, then upper bound. -/
def rangeLE (a b : TimeRange) : Bool :=
  a.lo < b.lo ∨ (a.lo = b.lo ∧ a.hi ≤ b.hi)

/-- `ORDER BY spans.time ASC, spans.id`. -/
def spanRowLE (a b : SpanRow) : Bool :=
  (rangeLE a.time b.time ∧ a.time ≠ b.time) ∨ (a.time = b.time ∧ a.id ≤ b.id)

/-- One row of the `spans LEFT JOIN tags` result: the span columns and,
when a tags row matched, its key, value and time columns (`none` is the
all-NULL padding of the LEFT JOIN). -/
structure JoinRow where
  spanID : Int
  traceID : Int
  time : TimeRange
  svc : Str
  op : Str
  tag : Option (Str × Str × Option Int)
deriving DecidableEq, Repr

/-- The LEFT JOIN rows contributed by one span row: one row per
matching tags row, or a single padding row when none match. -/
def rowsForSpan (tags : List TagRow) (s : SpanRow) : List JoinRow :=
  let ts := tags.filter fun t => t.span_id = s.id
  if ts.isEmpty then
    [{ spanID := s.id, traceID := s.trace_id, time := s.time, svc := s.service_name,
       op := s.operation_name, tag := none }]
  else
    ts.map fun t =>
      { spanID := s.id, traceID := s.trace_id, time := s.time, svc := s.service_name,
        op := s.operation_name, tag := some (t.key, t.value, t.time) }

/-- The zero `RawSpan` (`span = tracer.RawSpan{Tags: map...}` sets the
tag map; everything else is the zero value). -/
def emptyRawSpan : RawSpan :=
  { ctx := { TraceID := 0, ParentID := 0, SpanID := 0, Flags := 0, Baggage := [] },
    ServiceName := [], OperationName := [], StartTime := 0, FinishTime := 0,
    Tags := [], Logs := [] }

/-- The flush of the previous span into the result list when the row
starts a new span ID (and the previous ID is non-zero). -/
def scanAcc (st : Int × RawSpan × List RawSpan) (row : JoinRow) : List RawSpan :=
  if row.spanID ≠ st.1 ∧ st.1 ≠ 0 then st.2.2 ++ [st.2.1] else st.2.2

/-- The unconditional span-column assignments of the loop body, on the
fresh span (on an ID change) or the current one. -/
def scanSpanBase (st : Int × RawSpan × List RawSpan) (row : JoinRow) : RawSpan :=
  let span0 := if row.spanID ≠ st.1 then emptyRawSpan else st.2.1
  { span0 with
    ctx := { span0.ctx with SpanID := fromInt64 row.spanID, TraceID := fromInt64 row.traceID }
    StartTime := row.time.lo
    FinishTime := row.time.hi
    ServiceName := row.svc
    OperationName := row.op }

/-- The tag/log part of the loop body: rows whose key is NULL or empty
are skipped; a NULL tag time makes the row a tag, a set one a log. -/
def scanSpanTag (span1 : RawSpan) (tag : Option (Str × Str × Option Int)) : RawSpan :=
  match tag with
  | none => span1
  | some (k, v, tt) =>
      if k ≠ [] then
        match tt with
        | none => { span1 with Tags := tagSet span1.Tags k (.vStr v) }
        | some t => { span1 with
            Logs := span1.Logs ++ [{ Event := k, Payload := .vStr v, Timestamp := t }] }
      else span1

/-- One iteration of the `scanSpans` row loop.  `tagKey` is scanned
into a `sql.NullString`, so a NULL key reads as the empty string and is
skipped by the `tagKey.String != ""` check exactly like a genuinely
empty key. -/
def scanStep (st : Int × RawSpan × List RawSpan) (row : JoinRow) :
    Int × RawSpan × List RawSpan :=
  (if row.spanID ≠ st.1 then row.spanID else st.1,
   scanSpanTag (scanSpanBase st row) row.tag,
   scanAcc st row)

/-- The final flush of `scanSpans`: append the in-progress span when
its ID is non-zero. -/
def scanSpansOut (st : Int × RawSpan × List RawSpan) : List RawSpan :=
  if st.2.1.ctx.SpanID ≠ 0 then st.2.2 ++ [st.2.1] else st.2.2

/-- `scanSpans`: fold the row loop, then flush the last span when its
ID is non-zero. -/
def scanSpans (rows : List JoinRow) : List RawSpan :=
  scanSpansOut (rows.foldl scanStep (0, emptyRawSpan, []))

/-! Derived views of the rows one `Store` call writes, and of the span
values the scanner reconstructs; used to state the Store/TraceByID
round trip. -/

/-- The `spans` row a `Store` call upserts for its span. -/
def spanRowOf (sp : RawSpan) : SpanRow :=
  { id := toInt64 sp.ctx.SpanID, trace_id := toInt64 sp.ctx.TraceID,
    time := { lo := sp.StartTime, hi := sp.FinishTime },
    service_name := sp.ServiceName, operation_name := sp.OperationName }

/-- The `tags` rows a `Store` call inserts for the span's tags. -/
def tagRowsOf (sp : RawSpan) : List TagRow :=
  sp.Tags.map fun kv =>
    { trace_id := toInt64 sp.ctx.TraceID, span_id := toInt64 sp.ctx.SpanID,
      key := kv.1, value := storeValue kv.2, time := none }

/-- The `tags` rows a `Store` call inserts for the span's logs. -/
def logRowsOf (sp : RawSpan) : List TagRow :=
  sp.Logs.map fun l =>
    { trace_id := toInt64 sp.ctx.TraceID
      span_id := toInt64 sp.ctx.SpanID
      key := l.Event
      value := storeValue l.Payload
      time := some l.Timestamp }

/-- The `relations` rows a `Store` call inserts. -/
def relRowsOf (sp : RawSpan) : List RelRow :=
  if sp.ctx.ParentID ≠ 0 then
    [{ span1_id := toInt64 sp.ctx.ParentID, span2_id := toInt64 sp.ctx.SpanID,
       kind := str (r"parent") }]
  else []

/-- `find?` by primary key over the `spans` table. -/
def rowLookup (rows : List SpanRow) (i : Int) : Option SpanRow :=
  rows.find? fun r => r.id = i

/-- One tags row folded into the (tags, logs) accumulator exactly as
the scanner's tag branch does. -/
def tlStep (tl : List (Str × Value) × List LogData) (t : TagRow) :
    List (Str × Value) × List LogData :=
  if t.key ≠ [] then
    match t.time with
    | none => (tagSet tl.1 t.key (.vStr t.value), tl.2)
    | some ts => (tl.1, tl.2 ++ [{ Event := t.key, Payload := .vStr t.value, Timestamp := ts }])
  else tl

/-- The (tags, logs) pair accumulated over a span's tags rows. -/
def spanTL (trs : List TagRow) : List (Str × Value) × List LogData :=
  trs.foldl tlStep ([], [])

/-- The span value the scanner builds from a `spans` row and a (tags,
logs) accumulator. -/
def partialSpan (s : SpanRow) (tl : List (Str × Value) × List LogData) : RawSpan :=
  { ctx := { TraceID := fromInt64 s.trace_id, ParentID := 0, SpanID := fromInt64 s.id,
             Flags := 0, Baggage := [] },
    ServiceName := s.service_name, OperationName := s.operation_name,
    StartTime := s.time.lo, FinishTime := s.time.hi,
    Tags := tl.1, Logs := tl.2 }

/-- The span value `scanSpans` reconstructs for one `spans` row from
the joined tags rows. -/
def reconstructSpan (tags : List TagRow) (s : SpanRow) : RawSpan :=
  partialSpan s (spanTL (tags.filter fun t => t.span_id = s.id))

/-- What one stored span looks like after the Store/TraceByID round
trip: IDs and columns survive; `ParentID`, `Flags` and `Baggage` are
not persisted in the `spans` table and come back as zero values; tag
and log values come back stringified. -/
def readBack (sp : RawSpan) : RawSpan :=
  { ctx := { TraceID := sp.ctx.TraceID, ParentID := 0, SpanID := sp.ctx.SpanID,
             Flags := 0, Baggage := [] },
    ServiceName := sp.ServiceName, OperationName := sp.OperationName,
    StartTime := sp.StartTime, FinishTime := sp.FinishTime,
    Tags := sp.Tags.map fun kv => (kv.1, Value.vStr (storeValue kv.2)),
    Logs := sp.Logs.map fun l =>
      { Event := l.Event, Payload := Value.vStr (storeValue l.Payload),
        Timestamp := l.Timestamp } }

/-- The `selectRelations` query: relations whose `span1_id` joins to a
span row of the trace. -/
def relationsForTrace (db : DB) (tid : Int) : List RawRelation :=
  (db.relations.filter fun r =>
      db.spans.any fun s => s.id = r.span1_id ∧ s.trace_id = tid).map
    fun r => { ParentID := fromInt64 r.span1_id, ChildID := fromInt64 r.span2_id, Kind := r.kind }

/-- `Storage.traceByID`: the spans+tags join for the trace ordered by
`(time, id)`, collapsed by `scanSpans`, plus the trace's relations. -/
def traceByID (db : DB) (id : Nat) : RawTrace :=
  let tid := toInt64 id
  let ss := (db.spans.filter fun s => s.trace_id = tid).mergeSort spanRowLE
  let rows := ss.flatMap (rowsForSpan db.tags)
  { TraceID := id, Spans := scanSpans rows, Relations := relationsForTrace db tid }

/-- `Storage.spanByID`: the same join shape with `WHERE spans.id = ?
LIMIT 1`; `none` is the `sql.ErrNoRows` result. -/
def spanByID (db : DB) (id : Nat) : Option RawSpan :=
  let rows := (db.spans.filter fun s => s.id = toInt64 id).flatMap (rowsForSpan db.tags)
  match scanSpans (rows.take 1) with
  | [] => none
  | s :: _ => some s

/-! ## QueryTraces: defaults, the duration function, and the compiled
SQL text -/

/-- `server.QueryTag`. -/
structure QueryTag where
  Key : Str
  Value : Str
  CheckValue : Bool
deriving DecidableEq, Repr

/-- `server.Query`.  Durations are `time.Duration` (int64
nanoseconds). -/
structure Query where
  StartTime : Int
  FinishTime : Int
  OperationName : Str
  MinDuration : Int
  MaxDuration : Int
  AndTags : List QueryTag
  OrTags : List QueryTag
  Num : Int
deriving DecidableEq, Repr

/-- The default substitutions at the top of `QueryTraces`:
`FinishTime = 0` becomes "now", `MaxDuration = 0` and `Num = 0` become
`1<<31 - 1`. -/
def applyQueryDefaults (q : Query) (now : Int) : Query :=
  let q := if q.FinishTime = 0 then { q with FinishTime := now } else q
  let q := if q.MaxDuration = 0 then { q with MaxDuration := 2 ^ 31 - 1 } else q
  if q.Num = 0 then { q with Num := 2 ^ 31 - 1 } else q

/-- The SQL function `duration(tstzrange)` as the schema the storage
runs against declares it (the schema that also defines the
`dependencies` materialized view read by `Storage.Dependencies`): the
range's width in nanoseconds cast to a PostgreSQL `bigint` (int8); the
cast raises an error (`none`) only when the value does not fit in 64
bits. -/
def durationSQL (t : TimeRange) : Option Int :=
  if -(2 ^ 63) ≤ t.hi - t.lo ∧ t.hi - t.lo ≤ 2 ^ 63 - 1 then some (t.hi - t.lo) else none

/-- Evaluating `DURATION(time) >= min AND DURATION(time) <= max` on a
candidate row: `none` when the duration function errors. -/
def durCond (t : TimeRange) (minD maxD : Int) : Option Bool :=
  (durationSQL t).map fun d => decide (minD ≤ d ∧ d ≤ maxD)

/-- The same condition with no upper duration bound. -/
def durCondNoUpper (t : TimeRange) (minD : Int) : Option Bool :=
  (durationSQL t).map fun d => decide (minD ≤ d)

/-- The tag condition compiled for a value-checked query tag. -/
def condKV : Str := str (r"(tags.key = ? AND tags.value = ?)")

/-- The tag condition compiled for a key-only query tag. -/
def condK : Str := str (r"(tags.key = ?)")

/-- `strings.Join`. -/
def sjoin (xs : List Str) (sep : Str) : Str :=
  match xs with
  | [] => []
  | [x] => x
  | x :: rest => x ++ sep ++ sjoin rest sep

/-- The local `and` of `QueryTraces`: the AND tag conditions joined
with `" AND "`. -/
def andJoin (q : Query) : Str :=
  sjoin (q.AndTags.map fun t => if t.CheckValue then condKV else condK) (str (r" AND "))

/-- The local `or` of `QueryTraces`: the OR tag conditions joined with
`" OR "`. -/
def orJoin (q : Query) : Str :=
  sjoin (q.OrTags.map fun t => if t.CheckValue then condKV else condK) (str (r" OR "))

/-- The `conds` list: `"true"`, then the joined AND group, then the
joined OR group, each added only when non-empty. -/
def buildConds (q : Query) : List Str :=
  let conds := [str (r"true")]
  let conds := if andJoin q ≠ [] then conds ++ [andJoin q] else conds
  if orJoin q ≠ [] then conds ++ [orJoin q] else conds

/-- `sqlx.Rebind` for the PostgreSQL bindtype: each `?` becomes `$1`,
`$2`, ... in order. -/
def rebindAux : Str → Nat → Str
  | [], _ => []
  | c :: rest, k =>
      if c = 63 then 36 :: (formatUint10 k ++ rebindAux rest (k + 1))
      else c :: rebindAux rest k

/-- `st.db.Rebind`. -/
def goRebind (s : Str) : Str := rebindAux s 1

/-- The query template used when no tag conditions exist. -/
def tmplNoTags : String := r"
SELECT sub.trace_id FROM (
SELECT *
FROM spans
WHERE
  ? @> spans.time AND
  (? = '' OR operation_name = ?) AND
  DURATION(time) >= ? AND
  DURATION(time) <= ? AND
  spans.id = spans.trace_id
ORDER BY
  spans.time DESC,
  spans.trace_id
LIMIT ?) AS sub
ORDER BY sub.time ASC, sub.trace_id
"

/-- The part of the tag-condition query template before
`strings.Join(conds, " AND ")` is pasted in. -/
def tmplTagsPre : String := r"
SELECT sub.trace_id FROM (
SELECT *
FROM spans
WHERE
  EXISTS (
    SELECT 1
    FROM tags
    WHERE
      tags.trace_id = spans.trace_id AND
      "

/-- The part of the tag-condition query template after the pasted
conditions (verbatim from the source, including the final close
parenthesis before the closing backquote). -/
def tmplTagsPost : String := r"
  ) AND
  ? @> spans.time AND
  (? = '' OR operation_name = ?) AND
  DURATION(time) >= ? AND
  DURATION(time) <= ? AND
  spans.id = spans.trace_id
ORDER BY
  spans.time DESC,
  spans.trace_id
LIMIT ?) AS sub
ORDER BY sub.time ASC, sub.trace_id
)
"

/-- The SQL text `QueryTraces` hands to the database for a given query
(after default substitution): the no-tag template when `conds` is just
`"true"`, otherwise the EXISTS template with the joined conditions. -/
def compiledTraceQuery (q : Query) : Str :=
  let conds := buildConds q
  if conds.length = 1 then goRebind (str tmplNoTags)
  else goRebind (str tmplTagsPre ++ sjoin conds (str (r" AND ")) ++ str tmplTagsPost)

/-- Count of a byte in a byte string. -/
def countByte (b : Nat) (s : Str) : Nat := s.count b

/-- A byte string with balanced round brackets. -/
def parenBalanced (s : Str) : Prop := countByte 40 s = countByte 41 s

instance (s : Str) : Decidable (parenBalanced s) := by
  unfold parenBalanced
  infer_instance

/-! Helper views for the Store/TraceByID round trip (C3). -/

/-- The `spans.id` column values the stored spans claim for themselves. -/
def allIds (sps : List RawSpan) : List Int :=
  sps.map fun sp => toInt64 sp.ctx.SpanID

/-- The invariant `storeList` maintains over the database while the
spans of one trace `T` are stored: every row carries the trace id and an
id claimed by some span of the batch, ids stay unique, every span
already stored is found (fully written) under its id, and the tags and
relations tables are exactly the stored spans' rows in order. -/
def StoreInv (T : Nat) (sps stored : List RawSpan) (db : DB) : Prop :=
  (∀ row ∈ db.spans, row.trace_id = toInt64 T ∧ row.id ∈ allIds sps) ∧
  (db.spans.map (·.id)).Nodup ∧
  (∀ sp ∈ stored, rowLookup db.spans (toInt64 sp.ctx.SpanID) = some (spanRowOf sp)) ∧
  db.tags = stored.flatMap (fun sp => tagRowsOf sp ++ logRowsOf sp) ∧
  db.relations = stored.flatMap relRowsOf

/-- The tags row stored for one tag of a span. -/
def tagRowKV (tid sid : Int) (kv : Str × Value) : TagRow :=
  { trace_id := tid, span_id := sid, key := kv.1, value := storeValue kv.2, time := none }

/-- The tags row stored for one log entry of a span. -/
def logRowL (tid sid : Int) (l : LogData) : TagRow :=
  { trace_id := tid, span_id := sid, key := l.Event, value := storeValue l.Payload,
    time := some l.Timestamp }

/-- A log entry as it comes back from the database: the payload
stringified. -/
def logOut (l : LogData) : LogData :=
  { Event := l.Event, Payload := .vStr (storeValue l.Payload), Timestamp := l.Timestamp }

/-- The JOIN row one matching tags row contributes for a span row. -/
def joinRowOf (s : SpanRow) (t : TagRow) : JoinRow :=
  { spanID := s.id, traceID := s.trace_id, time := s.time, svc := s.service_name,
    op := s.operation_name, tag := some (t.key, t.value, t.time) }

/-- The parent/child relation a stored span contributes to its trace,
as `TraceByID` reports it. -/
def parentRelOf (sp : RawSpan) : List RawRelation :=
  if sp.ctx.ParentID ≠ 0 then
    [{ ParentID := sp.ctx.ParentID, ChildID := sp.ctx.SpanID, Kind := str (r"parent") }]
  else []

/-- The S5 scenario of the spec: a root span whose SpanID equals the
TraceID, a child and a grandchild, with a tag, a log and another tag. -/
def s5Spans : List RawSpan :=
  [{ ctx := { TraceID := 10, ParentID := 0, SpanID := 10, Flags := 1, Baggage := [] },
     ServiceName := str (r"svc"), OperationName := str (r"root"),
     StartTime := 100, FinishTime := 200,
     Tags := [(str (r"url"), .vStr (str (r"/hello")))], Logs := [] },
   { ctx := { TraceID := 10, ParentID := 10, SpanID := 11, Flags := 1, Baggage := [] },
     ServiceName := str (r"svc"), OperationName := str (r"child"),
     StartTime := 110, FinishTime := 150,
     Tags := [], Logs := [{ Event := str (r"ev"), Payload := .vInt 7, Timestamp := 120 }] },
   { ctx := { TraceID := 10, ParentID := 11, SpanID := 12, Flags := 0, Baggage := [] },
     ServiceName := str (r"svc2"), OperationName := str (r"leaf"),
     StartTime := 120, FinishTime := 130,
     Tags := [(str (r"k"), .vBool true)], Logs := [] }]

/-- A span carrying a sampled flag, to probe whether `Flags` survives
the Store/TraceByID round trip. -/
def flaggedSpan : RawSpan :=
  { ctx := { TraceID := 5, ParentID := 0, SpanID := 5, Flags := 1, Baggage := [] },
    ServiceName := str (r"svc"), OperationName := str (r"op1"),
    StartTime := 1, FinishTime := 2, Tags := [], Logs := [] }

/-! # Theorems -/

/-! ## C7: shipper counters -/

theorem storeAll_chCap (sps : List RawSpan) (g : GRPC) :
    (storeAll g sps).chCap = g.chCap := by
  induction sps generalizing g with
  | nil => rfl
  | cons sp rest ih =>
      simp only [storeAll, List.foldl_cons] at *
      rw [ih]
      unfold GRPCStore
      split <;> rfl

theorem storeAll_counter_sum (sps : List RawSpan) (g : GRPC) :
    (storeAll g sps).stored + (storeAll g sps).dropped =
      g.stored + g.dropped + sps.length := by
  induction sps generalizing g with
  | nil => rfl
  | cons sp rest ih =>
      simp only [storeAll, List.foldl_cons] at *
      rw [ih]
      unfold GRPCStore
      split <;> simp <;> omega

theorem storeAll_stored_ch (sps : List RawSpan) (g : GRPC) :
    (storeAll g sps).stored + g.ch.length =
      g.stored + (storeAll g sps).ch.length := by
  induction sps generalizing g with
  | nil => rfl
  | cons sp rest ih =>
      simp only [storeAll, List.foldl_cons] at *
      have ih' := ih (GRPCStore g sp).1
      unfold GRPCStore at ih'
      revert ih'
      unfold GRPCStore
      split <;> intro ih' <;> simp at ih' ⊢ <;> omega

theorem storeAll_chlen_le (sps : List RawSpan) (g : GRPC) (h : g.ch.length ≤ g.chCap) :
    (storeAll g sps).ch.length ≤ (storeAll g sps).chCap := by
  induction sps generalizing g with
  | nil => exact h
  | cons sp rest ih =>
      simp only [storeAll, List.foldl_cons] at *
      apply ih
      unfold GRPCStore
      split
      · simp
        omega
      · simpa using h

/-- C7: every `Store` call on the shipper is non-blocking and
error-free, and bumps exactly one of the stored/dropped counters; hence
after submitting any list of spans to a fresh shipper with queue size
Q, stored + dropped equals the number of submissions, and — while the
worker is not draining the intake channel — at most 2*Q spans are
stored (the intake capacity). -/
theorem C7_shipper_store_counters (g : GRPC) (sp : RawSpan)
    (queueSize : Nat) (sps : List RawSpan) :
    (GRPCStore g sp).2 = none ∧
    (((GRPCStore g sp).1.stored = g.stored + 1 ∧ (GRPCStore g sp).1.dropped = g.dropped) ∨
      ((GRPCStore g sp).1.dropped = g.dropped + 1 ∧ (GRPCStore g sp).1.stored = g.stored)) ∧
    (storeAll (NewGRPC queueSize) sps).stored + (storeAll (NewGRPC queueSize) sps).dropped
      = sps.length ∧
    (storeAll (NewGRPC queueSize) sps).stored ≤ 2 * queueSize := by
  refine ⟨?_, ?_, ?_, ?_⟩
  · unfold GRPCStore; split <;> rfl
  · unfold GRPCStore; split
    · left; exact ⟨rfl, rfl⟩
    · right; exact ⟨rfl, rfl⟩
  · have := storeAll_counter_sum sps (NewGRPC queueSize)
    simpa [NewGRPC] using this
  · have h1 := storeAll_stored_ch sps (NewGRPC queueSize)
    have h2 := storeAll_chlen_le sps (NewGRPC queueSize) (by simp [NewGRPC])
    have h3 := storeAll_chCap sps (NewGRPC queueSize)
    rw [show (NewGRPC queueSize).ch = [] from rfl] at h1
    rw [show (NewGRPC queueSize).stored = 0 from rfl] at h1
    rw [h3, show (NewGRPC queueSize).chCap = 2 * queueSize from rfl] at h2
    simp at h1
    omega

/-! ## C9: Inject with a foreign span-context type -/

/-- C9: `Tracer.Inject` rejects a span context whose dynamic type is
not this package's `SpanContext` with the "invalid span context" error,
for every format, leaving the carrier untouched; that error is distinct
from "invalid carrier" and "unsupported format". -/
theorem C9_inject_foreign_context (sm : OTSpanContext) (format : Format) (carrier : Carrier)
    (h : ∀ c, sm ≠ OTSpanContext.ours c) :
    Inject sm format carrier = (some .invalidSpanContext, carrier) ∧
    OTErr.invalidSpanContext ≠ OTErr.invalidCarrier ∧
    OTErr.invalidSpanContext ≠ OTErr.unsupportedFormat := by
  refine ⟨?_, by decide, by decide⟩
  cases sm with
  | ours c => exact absurd rfl (h c)
  | foreign => rfl

/-- Witness for C9 at a concrete foreign context, the binary format and
a concrete text carrier. -/
theorem C9_inject_foreign_context_witness :
    Inject OTSpanContext.foreign Format.binary (Carrier.text []) =
      (some .invalidSpanContext, Carrier.text []) ∧
    OTErr.invalidSpanContext ≠ OTErr.invalidCarrier ∧
    OTErr.invalidSpanContext ≠ OTErr.unsupportedFormat :=
  C9_inject_foreign_context OTSpanContext.foreign Format.binary (Carrier.text [])
    (fun _ hc => OTSpanContext.noConfusion hc)

/-! ## C2: StartSpan ignores the sampling.priority tag -/

/-- C2 (code evaluation): for a `StartSpan` call without a parent
reference, the sampled flag of the returned span is exactly the
sampler's decision — the start options' tags, including any
`sampling.priority` entry, never influence it. -/
theorem C2_startspan_priority_ignored (tr : TracerT) (opName : Str)
    (sopts : StartSpanOptions) (id : Nat) (now : Int) (sp : RawSpan)
    (href : sopts.References = [])
    (h : StartSpan tr opName sopts id now = some sp) :
    sampledRaw sp = tr.Sampler id := by
  unfold StartSpan at h
  rw [href] at h
  simp only [Option.some.injEq] at h
  subst h
  unfold sampledRaw FlagSampled
  cases hs : tr.Sampler id <;> simp [hs]

/-- Witness for C2: a tracer with `Const(false)` sampler and a
`sampling.priority = 1` tag in the start options still yields an
unsampled span. -/
theorem C2_startspan_priority_ignored_witness :
    sampledRaw ((StartSpan
        { ServiceName := str (r"svc"), Sampler := NewConstSampler false }
        (str (r"x"))
        { StartTime := 0, References := [], Tags := [(samplingPriorityKey, .vInt 1)] }
        7 100).getD emptyRawSpan) = false := by
  have h := C2_startspan_priority_ignored
    { ServiceName := str (r"svc"), Sampler := NewConstSampler false }
    (str (r"x"))
    { StartTime := 0, References := [], Tags := [(samplingPriorityKey, .vInt 1)] }
    7 100
    ((StartSpan
        { ServiceName := str (r"svc"), Sampler := NewConstSampler false }
        (str (r"x"))
        { StartTime := 0, References := [], Tags := [(samplingPriorityKey, .vInt 1)] }
        7 100).getD emptyRawSpan)
    rfl rfl
  simpa [NewConstSampler] using h

/-! ## C6: mutators on unsampled spans -/

/-- C6 (amended): on a span whose sampled flag is clear, `SetTag`,
`Log`, `LogEvent`, `LogEventWithPayload`, `Finish` and
`FinishWithOptions` leave the span unchanged and hand nothing to the
storer — but `SetOperationName` is the exception: it updates the
operation name unconditionally. -/
theorem C6_unsampled_mutators (sp : RawSpan) (k : Str) (v : Value) (data : LogData)
    (event : Str) (payload : Value) (now : Int) (opts : FinishOptions) (name : Str)
    (h : sampledRaw sp = false) :
    SetTag sp k v = sp ∧
    logSpan sp data now = sp ∧
    LogEvent sp event now = sp ∧
    LogEventWithPayload sp event payload now = sp ∧
    Finish sp now = (sp, []) ∧
    FinishWithOptions sp opts now = (sp, []) ∧
    SetOperationName sp name = { sp with OperationName := name } := by
  refine ⟨?_, ?_, ?_, ?_, ?_, ?_, rfl⟩
  · unfold SetTag; simp [h]
  · unfold logSpan; simp [h]
  · unfold LogEvent; simp [h]
  · unfold LogEventWithPayload; simp [h]
  · unfold Finish; simp [h]
  · unfold FinishWithOptions; simp [h]

/-- Witness for C6 at a concrete unsampled span. -/
theorem C6_unsampled_mutators_witness :
    sampledRaw emptyRawSpan = false ∧
    (SetTag emptyRawSpan (str (r"k")) (.vInt 1) = emptyRawSpan ∧
     logSpan emptyRawSpan { Event := str (r"e"), Payload := .vNull, Timestamp := 5 } 9 = emptyRawSpan ∧
     LogEvent emptyRawSpan (str (r"e")) 9 = emptyRawSpan ∧
     LogEventWithPayload emptyRawSpan (str (r"e")) (.vInt 2) 9 = emptyRawSpan ∧
     Finish emptyRawSpan 9 = (emptyRawSpan, []) ∧
     FinishWithOptions emptyRawSpan { FinishTime := 0, BulkLogData := [] } 9 = (emptyRawSpan, []) ∧
     SetOperationName emptyRawSpan (str (r"n")) =
       { emptyRawSpan with OperationName := str (r"n") }) :=
  ⟨by decide,
   C6_unsampled_mutators emptyRawSpan (str (r"k")) (.vInt 1)
     { Event := str (r"e"), Payload := .vNull, Timestamp := 5 }
     (str (r"e")) (.vInt 2) 9 { FinishTime := 0, BulkLogData := [] } (str (r"n"))
     (by decide)⟩

/-- C6 counterexample: the claim "every mutator (including
SetOperationName) leaves an unsampled span unchanged" fails —
`SetOperationName` mutates an unsampled span. -/
theorem C6_set_operation_name_counterexample :
    sampledRaw emptyRawSpan = false ∧
    SetOperationName emptyRawSpan (str (r"x")) ≠ emptyRawSpan := by
  constructor
  · decide
  · decide

/-! ## C8: the MaxDuration sentinel -/

/-- C8: the claim is false.  With `MaxDuration = 0` QueryTraces
substitutes the sentinel `1<<31 - 1` nanoseconds (about 2.15 seconds),
but the schema's `duration` function returns a `bigint`, so a root
span whose duration exceeds the sentinel yields a real value on which
the `DURATION(time) <= MaxDuration` condition evaluates to false,
excluding the span — while the same condition without an upper bound
keeps it. -/
theorem C8_sentinel_excludes_long_spans (q : Query) (now : Int) (t : TimeRange)
    (h : q.MaxDuration = 0)
    (hlong : 2 ^ 31 - 1 < t.hi - t.lo) (h8 : t.hi - t.lo ≤ 2 ^ 63 - 1)
    (hmin : q.MinDuration ≤ t.hi - t.lo) :
    (applyQueryDefaults q now).MaxDuration = 2 ^ 31 - 1 ∧
    durCond t q.MinDuration ((applyQueryDefaults q now).MaxDuration) = some false ∧
    durCondNoUpper t q.MinDuration = some true := by
  have hmax : (applyQueryDefaults q now).MaxDuration = 2 ^ 31 - 1 := by
    unfold applyQueryDefaults
    split <;> simp [h] <;> split <;> simp
  refine ⟨hmax, ?_, ?_⟩
  · rw [hmax]
    unfold durCond durationSQL
    rw [if_pos ⟨by omega, h8⟩]
    simp
    omega
  · unfold durCondNoUpper durationSQL
    rw [if_pos ⟨by omega, h8⟩]
    simp
    exact hmin

/-! ## C1: the compiled tag query is not valid SQL -/

theorem countByte_append (b : Nat) (s t : Str) :
    countByte b (s ++ t) = countByte b s + countByte b t := by
  unfold countByte
  exact List.count_append b s t

theorem formatUint10_mem (n b : Nat) (hb : b ∈ formatUint10 n) : 48 ≤ b ∧ b ≤ 57 := by
  unfold formatUint10 at hb
  split at hb
  · simp at hb
    omega
  · simp at hb
    obtain ⟨d, hd, rfl⟩ := hb
    have := Nat.digits_lt_base (by norm_num) hd
    omega

theorem countByte_formatUint10 (b n : Nat) (hb : b < 48) :
    countByte b (formatUint10 n) = 0 := by
  unfold countByte
  rw [List.count_eq_zero]
  intro hmem
  have := formatUint10_mem n b hmem
  omega

theorem countByte_rebindAux (s : Str) (k b : Nat) (hb : b < 48) (hb' : b ≠ 36) :
    countByte b (rebindAux s k) = countByte b s := by
  induction s generalizing k with
  | nil => rfl
  | cons c rest ih =>
      unfold rebindAux
      by_cases hc : c = 63
      · subst hc
        rw [if_pos rfl]
        unfold countByte at *
        have hdig : List.count b (formatUint10 k) = 0 := by
          have := countByte_formatUint10 b k hb
          unfold countByte at this
          exact this
        have h1 : ((63 : Nat) == b) = false := by
          rw [beq_eq_false_iff_ne]
          omega
        have h2 : ((36 : Nat) == b) = false := by
          rw [beq_eq_false_iff_ne]
          omega
        simp only [List.count_cons, List.count_append, ih, hdig, h1, h2]
        omega
      · rw [if_neg hc]
        unfold countByte at *
        rw [List.count_cons, List.count_cons, ih]

theorem countByte_goRebind (s : Str) (b : Nat) (hb : b < 48) (hb' : b ≠ 36) :
    countByte b (goRebind s) = countByte b s :=
  countByte_rebindAux s 1 b hb hb'

theorem sjoin_balanced (xs : List Str) (sep : Str)
    (hx : ∀ x ∈ xs, parenBalanced x) (hs : parenBalanced sep) :
    parenBalanced (sjoin xs sep) := by
  induction xs with
  | nil => rfl
  | cons x rest ih =>
      cases rest with
      | nil => exact hx x (by simp)
      | cons y ys =>
          unfold sjoin parenBalanced
          rw [countByte_append, countByte_append, countByte_append, countByte_append]
          have h1 := hx x (by simp)
          have h2 := ih (fun z hz => hx z (by simp [hz]))
          unfold parenBalanced at h1 h2 hs
          omega

theorem sjoin_ne_nil (xs : List Str) (sep : Str) (hxs : xs ≠ [])
    (hx : ∀ x ∈ xs, x ≠ []) : sjoin xs sep ≠ [] := by
  cases xs with
  | nil => exact absurd rfl hxs
  | cons x rest =>
      cases rest with
      | nil => exact hx x (by simp)
      | cons y ys =>
          unfold sjoin
          intro hcontra
          rw [List.append_assoc] at hcontra
          have := List.append_eq_nil.mp hcontra
          exact hx x (by simp) this.1

theorem tagCond_balanced (t : QueryTag) :
    parenBalanced (if t.CheckValue then condKV else condK) := by
  split
  · unfold parenBalanced
    decide
  · unfold parenBalanced
    decide

theorem tagCond_ne_nil (t : QueryTag) :
    (if t.CheckValue then condKV else condK) ≠ [] := by
  split
  · decide
  · decide

theorem andJoin_balanced (q : Query) : parenBalanced (andJoin q) := by
  apply sjoin_balanced
  · intro x hx
    simp at hx
    obtain ⟨t, _, rfl⟩ := hx
    exact tagCond_balanced t
  · unfold parenBalanced
    decide

theorem orJoin_balanced (q : Query) : parenBalanced (orJoin q) := by
  apply sjoin_balanced
  · intro x hx
    simp at hx
    obtain ⟨t, _, rfl⟩ := hx
    exact tagCond_balanced t
  · unfold parenBalanced
    decide

theorem buildConds_balanced (q : Query) (c : Str) (hc : c ∈ buildConds q) :
    parenBalanced c := by
  have htrue : parenBalanced (str (r"true")) := by
    unfold parenBalanced
    decide
  unfold buildConds at hc
  by_cases h1 : andJoin q = [] <;> by_cases h2 : orJoin q = [] <;>
    simp [h1, h2] at hc
  · subst hc
    exact htrue
  · rcases hc with rfl | rfl
    · exact htrue
    · exact orJoin_balanced q
  · rcases hc with rfl | rfl
    · exact htrue
    · exact andJoin_balanced q
  · rcases hc with rfl | rfl | rfl
    · exact htrue
    · exact andJoin_balanced q
    · exact orJoin_balanced q

theorem andJoin_ne_nil (q : Query) (h : q.AndTags ≠ []) : andJoin q ≠ [] := by
  apply sjoin_ne_nil
  · simpa using h
  · intro x hx
    simp at hx
    obtain ⟨t, _, rfl⟩ := hx
    exact tagCond_ne_nil t

theorem orJoin_ne_nil (q : Query) (h : q.OrTags ≠ []) : orJoin q ≠ [] := by
  apply sjoin_ne_nil
  · simpa using h
  · intro x hx
    simp at hx
    obtain ⟨t, _, rfl⟩ := hx
    exact tagCond_ne_nil t

theorem buildConds_length (q : Query) (h : q.AndTags ≠ [] ∨ q.OrTags ≠ []) :
    (buildConds q).length ≠ 1 := by
  unfold buildConds
  by_cases h1 : andJoin q = [] <;> by_cases h2 : orJoin q = [] <;>
    simp [h1, h2]
  rcases h with h | h
  · exact absurd h1 (andJoin_ne_nil q h)
  · exact absurd h2 (orJoin_ne_nil q h)

/-- C1 (code evaluation): whenever the query carries AND or OR tag
predicates, the SQL text `QueryTraces` sends to the database has one
more closing round bracket than opening ones — it is not a
syntactically valid SQL statement, so the database rejects it and
`QueryTraces` returns an error instead of a result set. -/
theorem C1_tag_query_unbalanced (q : Query) (h : q.AndTags ≠ [] ∨ q.OrTags ≠ []) :
    countByte 41 (compiledTraceQuery q) = countByte 40 (compiledTraceQuery q) + 1 := by
  unfold compiledTraceQuery
  rw [if_neg (buildConds_length q h)]
  rw [countByte_goRebind _ 41 (by norm_num) (by norm_num)]
  rw [countByte_goRebind _ 40 (by norm_num) (by norm_num)]
  rw [countByte_append, countByte_append, countByte_append, countByte_append]
  have hj : parenBalanced (sjoin (buildConds q) (str (r" AND "))) := by
    apply sjoin_balanced
    · exact buildConds_balanced q
    · unfold parenBalanced
      decide
  unfold parenBalanced at hj
  have hpre40 : countByte 40 (str tmplTagsPre) = 2 := by decide
  have hpre41 : countByte 41 (str tmplTagsPre) = 0 := by decide
  have hpost40 : countByte 40 (str tmplTagsPost) = 3 := by decide
  have hpost41 : countByte 41 (str tmplTagsPost) = 6 := by decide
  omega

/-- Witness for C1 at the S6 scenario query
(`AndTags = [url=/hello checked]`). -/
theorem C1_tag_query_unbalanced_witness :
    countByte 41 (compiledTraceQuery
      { StartTime := 0, FinishTime := 10, OperationName := [], MinDuration := 0,
        MaxDuration := 0,
        AndTags := [{ Key := str (r"url"), Value := str (r"/hello"), CheckValue := true }],
        OrTags := [], Num := 0 }) =
    countByte 40 (compiledTraceQuery
      { StartTime := 0, FinishTime := 10, OperationName := [], MinDuration := 0,
        MaxDuration := 0,
        AndTags := [{ Key := str (r"url"), Value := str (r"/hello"), CheckValue := true }],
        OrTags := [], Num := 0 }) + 1 :=
  C1_tag_query_unbalanced
    { StartTime := 0, FinishTime := 10, OperationName := [], MinDuration := 0,
      MaxDuration := 0,
      AndTags := [{ Key := str (r"url"), Value := str (r"/hello"), CheckValue := true }],
      OrTags := [], Num := 0 }
    (Or.inl (by decide))

/-- Witness for C8: a three-second root span (3000000000 ns) is
excluded by the substituted sentinel although no upper bound was
requested. -/
theorem C8_sentinel_excludes_long_spans_witness :
    ((applyQueryDefaults
        { StartTime := 0, FinishTime := 10, OperationName := [], MinDuration := 0,
          MaxDuration := 0, AndTags := [], OrTags := [], Num := 0 } 50).MaxDuration
      = 2 ^ 31 - 1) ∧
    durCond { lo := 0, hi := 3000000000 } 0
        ((applyQueryDefaults
          { StartTime := 0, FinishTime := 10, OperationName := [], MinDuration := 0,
            MaxDuration := 0, AndTags := [], OrTags := [], Num := 0 } 50).MaxDuration)
      = some false ∧
    durCondNoUpper { lo := 0, hi := 3000000000 } 0 = some true :=
  C8_sentinel_excludes_long_spans
    { StartTime := 0, FinishTime := 10, OperationName := [], MinDuration := 0,
      MaxDuration := 0, AndTags := [], OrTags := [], Num := 0 } 50
    { lo := 0, hi := 3000000000 } rfl (by decide) (by decide) (by decide)

/-! ## Codec helper lemmas: big-endian, hex and decimal round trips -/

theorem be8_length (x : Nat) : (be8 x).length = 8 := rfl

theorem be8_append_drop (x : Nat) (r : List Nat) : (be8 x ++ r).drop 8 = r := rfl

theorem be8_append_drop16 (x y : Nat) (r : List Nat) :
    (be8 x ++ (be8 y ++ r)).drop 16 = r := rfl

theorem be8_append_drop24 (x y z : Nat) (r : List Nat) :
    (be8 x ++ (be8 y ++ (be8 z ++ r))).drop 24 = r := rfl

theorem be8_append_drop32 (x y z w : Nat) (r : List Nat) :
    (be8 x ++ (be8 y ++ (be8 z ++ (be8 w ++ r)))).drop 32 = r := rfl

theorem be8_mem_lt (x b : Nat) (hb : b ∈ be8 x) : b < 256 := by
  unfold be8 be8Byte at hb
  simp at hb
  rcases hb with rfl | rfl | rfl | rfl | rfl | rfl | rfl | rfl <;>
    exact Nat.mod_lt _ (by norm_num)

theorem beUint64_be8_append (x : Nat) (r : List Nat) (hx : x < 2 ^ 64) :
    beUint64 (be8 x ++ r) = x := by
  have h : beUint64 (be8 x ++ r) =
      ((((((x / 2 ^ 56 % 256 * 256 + x / 2 ^ 48 % 256) * 256 + x / 2 ^ 40 % 256) * 256 +
        x / 2 ^ 32 % 256) * 256 + x / 2 ^ 24 % 256) * 256 + x / 2 ^ 16 % 256) * 256 +
        x / 2 ^ 8 % 256) * 256 + x / 2 ^ 0 % 256 := rfl
  rw [h]
  omega

theorem beUint64_be8 (x : Nat) (hx : x < 2 ^ 64) : beUint64 (be8 x) = x := by
  rw [← List.append_nil (be8 x)]
  exact beUint64_be8_append x [] hx

theorem hexVal_hexDigit (n : Nat) (h : n < 16) : hexVal (hexDigit n) = some n := by
  unfold hexVal hexDigit
  by_cases h10 : n < 10
  · rw [if_pos h10, if_pos (by omega)]
    simp only [Option.some.injEq]
    omega
  · rw [if_neg h10, if_neg (by omega), if_pos (by omega)]
    simp only [Option.some.injEq]
    omega

theorem decodeHex_pairs (bs : List Nat) (h : ∀ b ∈ bs, b < 256) :
    decodeHex (bs.flatMap fun b => [hexDigit (b / 16), hexDigit (b % 16)]) = some bs := by
  induction bs with
  | nil => rfl
  | cons b rest ih =>
      have hb := h b (by simp)
      have h1 : hexVal (hexDigit (b / 16)) = some (b / 16) := hexVal_hexDigit _ (by omega)
      have h2 : hexVal (hexDigit (b % 16)) = some (b % 16) := hexVal_hexDigit _ (by omega)
      have h3 := ih fun x hx => h x (by simp [hx])
      simp only [List.flatMap_cons, List.cons_append, List.nil_append]
      unfold decodeHex
      rw [h1, h2, h3]
      have hb' : b / 16 * 16 + b % 16 = b := by omega
      simp [hb']

theorem idFromHex_idToHex (x : Nat) (hx : x < 2 ^ 64) : idFromHex (idToHex x) = x := by
  unfold idFromHex idToHex
  rw [decodeHex_pairs (be8 x) (be8_mem_lt x)]
  show (if 8 ≤ (be8 x).length then beUint64 (be8 x) else 0) = x
  rw [if_pos (by rw [be8_length])]
  exact beUint64_be8 x hx

theorem digitOfByte_digit (d : Nat) (h : d < 10) : digitOfByte (d + 48) = some d := by
  unfold digitOfByte
  rw [if_pos (by omega)]
  simp only [Option.some.injEq]
  omega

theorem parseDigitsGo_digits (ds : List Nat) (h : ∀ d ∈ ds, d < 10) (acc : Nat) :
    parseDigitsGo (ds.map (· + 48)) acc = some (ds.foldl (fun a d => a * 10 + d) acc) := by
  induction ds generalizing acc with
  | nil => rfl
  | cons d rest ih =>
      simp only [List.map_cons, List.foldl_cons]
      unfold parseDigitsGo
      rw [digitOfByte_digit d (h d (by simp))]
      exact ih (fun x hx => h x (by simp [hx])) (acc * 10 + d)

theorem foldl_digits_reverse (L : List Nat) (a : Nat) :
    L.reverse.foldl (fun x d => x * 10 + d) a = a * 10 ^ L.length + Nat.ofDigits 10 L := by
  induction L generalizing a with
  | nil => simp [Nat.ofDigits]
  | cons d rest ih =>
      simp only [List.reverse_cons, List.foldl_append, List.foldl_cons, List.foldl_nil]
      rw [ih, Nat.ofDigits_cons, List.length_cons, pow_succ]
      ring

theorem goParseUint10_format (f : Nat) (hf : f < 2 ^ 64) :
    goParseUint10 (formatUint10 f) = some f := by
  by_cases h0 : f = 0
  · subst h0
    rfl
  · have hform : formatUint10 f = ((Nat.digits 10 f).reverse.map (· + 48)) := by
      unfold formatUint10
      rw [if_neg h0]
    have hds : ∀ d ∈ (Nat.digits 10 f).reverse, d < 10 := by
      intro d hd
      exact Nat.digits_lt_base (by norm_num) (List.mem_reverse.mp hd)
    have hparse : parseDigitsGo (formatUint10 f) 0 = some f := by
      rw [hform, parseDigitsGo_digits _ hds 0]
      rw [foldl_digits_reverse]
      simp [Nat.ofDigits_digits]
    have hne : formatUint10 f ≠ [] := by
      rw [hform]
      simp only [ne_eq, List.map_eq_nil_iff, List.reverse_eq_nil_iff]
      exact Nat.digits_ne_nil_iff_ne_zero.mpr h0
    obtain ⟨c, cs, hcs⟩ := List.exists_cons_of_ne_nil hne
    rw [hcs] at hparse ⊢
    show (match parseDigitsGo (c :: cs) 0 with
          | none => none
          | some v => if v < 2 ^ 64 then some v else none) = some f
    rw [hparse]
    show (if f < 2 ^ 64 then some f else none) = some f
    rw [if_pos hf]

/-! ## Association-list (Go map) lemmas -/

theorem alSet_fresh (m : List (Str × Str)) (k v : Str) (h : k ∉ alKeys m) :
    alSet m k v = m ++ [(k, v)] := by
  induction m with
  | nil => rfl
  | cons kv rest ih =>
      obtain ⟨k', v'⟩ := kv
      unfold alKeys at h
      simp at h
      unfold alSet
      rw [if_neg (fun hc => h.1 hc.symm)]
      rw [ih (by unfold alKeys; simpa using h.2)]
      rfl

theorem foldl_alSet_fresh (es : List (Str × Str)) (acc : List (Str × Str))
    (hdisj : ∀ kv ∈ es, kv.1 ∉ alKeys acc)
    (hnd : (es.map Prod.fst).Nodup) :
    es.foldl (fun m kv => alSet m kv.1 kv.2) acc = acc ++ es := by
  induction es generalizing acc with
  | nil => simp
  | cons kv rest ih =>
      simp only [List.foldl_cons]
      rw [alSet_fresh acc kv.1 kv.2 (hdisj kv (by simp))]
      rw [List.map_cons, List.nodup_cons] at hnd
      rw [ih (acc ++ [(kv.1, kv.2)])]
      · simp
      · intro kv' hkv'
        unfold alKeys
        rw [List.map_append]
        simp only [List.mem_append, List.map_cons, List.map_nil, List.mem_singleton]
        rintro (hin | hin)
        · exact hdisj kv' (by simp [hkv']) hin
        · have hmem : kv'.1 ∈ List.map Prod.fst rest :=
            List.mem_map_of_mem Prod.fst hkv'
          rw [hin] at hmem
          exact hnd.1 hmem
      · exact hnd.2

/-! ## Carrier-key lemmas for the text codec -/

theorem goToLower_append (a b : Str) : goToLower (a ++ b) = goToLower a ++ goToLower b := by
  unfold goToLower
  exact List.map_append lcByte a b

theorem keyBaggage_append_ne_traceID (x : Str) : keyBaggage ++ x ≠ keyTraceID := by
  intro h
  have hlen := congrArg List.length h
  rw [List.length_append] at hlen
  have h1 : keyBaggage.length = 15 := rfl
  have h2 : keyTraceID.length = 14 := rfl
  omega

theorem keyBaggage_append_ne_spanID (x : Str) : keyBaggage ++ x ≠ keySpanID := by
  intro h
  have hlen := congrArg List.length h
  rw [List.length_append] at hlen
  have h1 : keyBaggage.length = 15 := rfl
  have h2 : keySpanID.length = 13 := rfl
  omega

theorem keyBaggage_append_ne_flags (x : Str) : keyBaggage ++ x ≠ keyFlags := by
  intro h
  have hlen := congrArg List.length h
  rw [List.length_append] at hlen
  have h1 : keyBaggage.length = 15 := rfl
  have h2 : keyFlags.length = 12 := rfl
  omega

theorem keyBaggage_append_ne_parentSpanID (x : Str) :
    keyBaggage ++ x ≠ keyParentSpanID := by
  intro h
  have h8 := congrArg (fun l => List.take 8 l) h
  simp only at h8
  rw [List.take_append_eq_append_take] at h8
  rw [show List.take (8 - keyBaggage.length) x = [] from by
    rw [show (8 : Nat) - keyBaggage.length = 0 from rfl]
    rfl] at h8
  rw [List.append_nil] at h8
  revert h8
  decide

theorem keyBaggage_isPrefixOf (x : Str) :
    keyBaggage.isPrefixOf (keyBaggage ++ x) = true := by
  rw [List.isPrefixOf_iff_prefix]
  exact List.prefix_append keyBaggage x

/-! ## Text codec processing lemmas.  The primed lemmas take any
carrier key whose lower-casing matches, witnessing that extraction
matches keys case-insensitively. -/

theorem textProcessKey_traceID' (ctx : SpanContext) (K v : Str)
    (hK : goToLower K = keyTraceID) :
    textProcessKey ctx K v = { ctx with TraceID := idFromHex v } := by
  simp only [textProcessKey]
  rw [hK, if_pos rfl]

theorem textProcessKey_spanID' (ctx : SpanContext) (K v : Str)
    (hK : goToLower K = keySpanID) :
    textProcessKey ctx K v = { ctx with SpanID := idFromHex v } := by
  simp only [textProcessKey]
  rw [hK, if_neg (by decide), if_pos rfl]

theorem textProcessKey_parentSpanID' (ctx : SpanContext) (K v : Str)
    (hK : goToLower K = keyParentSpanID) :
    textProcessKey ctx K v = { ctx with ParentID := idFromHex v } := by
  simp only [textProcessKey]
  rw [hK, if_neg (by decide), if_neg (by decide), if_pos rfl]

theorem textProcessKey_flags' (ctx : SpanContext) (K v : Str)
    (hK : goToLower K = keyFlags) :
    textProcessKey ctx K v = { ctx with Flags := (goParseUint10 v).getD 0 } := by
  simp only [textProcessKey]
  rw [hK, if_neg (by decide), if_neg (by decide), if_neg (by decide), if_pos rfl]

theorem textProcessKey_baggage' (ctx : SpanContext) (Pfx k v : Str)
    (hP : goToLower Pfx = keyBaggage) :
    textProcessKey ctx (Pfx ++ k) v =
      { ctx with Baggage := alSet ctx.Baggage k v } := by
  simp only [textProcessKey]
  have hlow : goToLower (Pfx ++ k) = keyBaggage ++ goToLower k := by
    rw [goToLower_append, hP]
  rw [hlow]
  rw [if_neg (keyBaggage_append_ne_traceID _)]
  rw [if_neg (keyBaggage_append_ne_spanID _)]
  rw [if_neg (keyBaggage_append_ne_parentSpanID _)]
  rw [if_neg (keyBaggage_append_ne_flags _)]
  rw [if_pos (keyBaggage_isPrefixOf _)]
  have hPlen : Pfx.length = keyBaggage.length := by
    have := congrArg List.length hP
    unfold goToLower at this
    rw [List.length_map] at this
    exact this
  rw [← hPlen, List.drop_left Pfx k]

theorem textProcessKey_baggage (ctx : SpanContext) (k v : Str) :
    textProcessKey ctx (keyBaggage ++ k) v =
      { ctx with Baggage := alSet ctx.Baggage k v } :=
  textProcessKey_baggage' ctx keyBaggage k v (by decide)

theorem textProcessKey_traceID (ctx : SpanContext) (v : Str) :
    textProcessKey ctx keyTraceID v = { ctx with TraceID := idFromHex v } :=
  textProcessKey_traceID' ctx keyTraceID v (by decide)

theorem textProcessKey_spanID (ctx : SpanContext) (v : Str) :
    textProcessKey ctx keySpanID v = { ctx with SpanID := idFromHex v } :=
  textProcessKey_spanID' ctx keySpanID v (by decide)

theorem textProcessKey_parentSpanID (ctx : SpanContext) (v : Str) :
    textProcessKey ctx keyParentSpanID v = { ctx with ParentID := idFromHex v } :=
  textProcessKey_parentSpanID' ctx keyParentSpanID v (by decide)

theorem textProcessKey_flagsK (ctx : SpanContext) (v : Str) :
    textProcessKey ctx keyFlags v = { ctx with Flags := (goParseUint10 v).getD 0 } :=
  textProcessKey_flags' ctx keyFlags v (by decide)

theorem foldl_textProcess_mapped (bs : List (Str × Str)) (ctx : SpanContext) :
    (bs.map fun kv => (keyBaggage ++ kv.1, kv.2)).foldl
      (fun c kv => textProcessKey c kv.1 kv.2) ctx =
      { ctx with Baggage := bs.foldl (fun m kv => alSet m kv.1 kv.2) ctx.Baggage } := by
  induction bs generalizing ctx with
  | nil => rfl
  | cons kv rest ih =>
      simp only [List.map_cons, List.foldl_cons]
      rw [textProcessKey_baggage]
      exact ih { ctx with Baggage := alSet ctx.Baggage kv.1 kv.2 }

/-- The carrier a text-map injection into an empty map produces: the
four fixed keys, then one `tracer-baggage-`-qualified entry per baggage
item. -/
theorem textInjecterC_empty (c : SpanContext) (hnd : (alKeys c.Baggage).Nodup) :
    textInjecterC c [] =
      [(keyTraceID, idToHex c.TraceID), (keySpanID, idToHex c.SpanID),
       (keyParentSpanID, idToHex c.ParentID), (keyFlags, formatUint10 c.Flags)] ++
      c.Baggage.map (fun kv => (keyBaggage ++ kv.1, kv.2)) := by
  simp only [textInjecterC]
  have hbase : alSet (alSet (alSet (alSet [] keyTraceID (idToHex c.TraceID)) keySpanID
      (idToHex c.SpanID)) keyParentSpanID (idToHex c.ParentID)) keyFlags
      (formatUint10 c.Flags) =
      [(keyTraceID, idToHex c.TraceID), (keySpanID, idToHex c.SpanID),
       (keyParentSpanID, idToHex c.ParentID), (keyFlags, formatUint10 c.Flags)] := by
    rfl
  rw [hbase]
  rw [← List.foldl_map (fun kv : Str × Str => (keyBaggage ++ kv.1, kv.2))
    (fun m kv => alSet m kv.1 kv.2)]
  apply foldl_alSet_fresh
  · intro kv hkv
    simp only [List.mem_map] at hkv
    obtain ⟨kv', _, rfl⟩ := hkv
    unfold alKeys
    simp only [List.map_cons, List.map_nil, List.mem_cons, List.not_mem_nil, or_false]
    rintro (h | h | h | h)
    · exact keyBaggage_append_ne_traceID _ h
    · exact keyBaggage_append_ne_spanID _ h
    · exact keyBaggage_append_ne_parentSpanID _ h
    · exact keyBaggage_append_ne_flags _ h
  · rw [List.map_map]
    have : (Prod.fst ∘ fun kv : Str × Str => (keyBaggage ++ kv.1, kv.2)) =
        (fun x => keyBaggage ++ x) ∘ Prod.fst := rfl
    rw [this, ← List.map_map]
    apply List.Nodup.map
    · intro a b hab
      exact List.append_cancel_left hab
    · exact hnd

/-- The text-map round trip at the level of the codec bodies. -/
theorem textExtract_textInject (c : SpanContext) (hT : c.TraceID ≠ 0)
    (hwf : ctxWF c) :
    textExtracterC (textInjecterC c []) = .ok c := by
  obtain ⟨hT64, hS64, hP64, hF64, _, _, hnd⟩ := hwf
  rw [textInjecterC_empty c hnd]
  simp only [textExtracterC, List.cons_append, List.nil_append, List.foldl_cons,
    textProcessKey_traceID, textProcessKey_spanID, textProcessKey_parentSpanID,
    textProcessKey_flagsK]
  rw [foldl_textProcess_mapped]
  rw [foldl_alSet_fresh c.Baggage [] (by simp [alKeys]) hnd]
  simp only [List.nil_append]
  rw [idFromHex_idToHex c.TraceID hT64]
  rw [idFromHex_idToHex c.SpanID hS64]
  rw [idFromHex_idToHex c.ParentID hP64]
  rw [goParseUint10_format c.Flags hF64]
  simp only [Option.getD_some]
  rw [if_neg hT]

/-- Text extraction recognises its keys case-insensitively: any
carrier whose keys lower-case to the recognised keys (and whose baggage
keys carry any casing of the `tracer-baggage-` marker) extracts the
same context. -/
theorem textExtract_case_insensitive (c : SpanContext)
    (hT : c.TraceID ≠ 0) (hT64 : c.TraceID < 2 ^ 64) (hS64 : c.SpanID < 2 ^ 64)
    (hP64 : c.ParentID < 2 ^ 64) (hF64 : c.Flags < 2 ^ 64)
    (K1 K2 K3 K4 Pfx k v : Str)
    (h1 : goToLower K1 = keyTraceID) (h2 : goToLower K2 = keySpanID)
    (h3 : goToLower K3 = keyParentSpanID) (h4 : goToLower K4 = keyFlags)
    (h5 : goToLower Pfx = keyBaggage) :
    textExtracterC [(K1, idToHex c.TraceID), (K2, idToHex c.SpanID),
      (K3, idToHex c.ParentID), (K4, formatUint10 c.Flags), (Pfx ++ k, v)] =
      .ok { TraceID := c.TraceID, ParentID := c.ParentID, SpanID := c.SpanID,
            Flags := c.Flags, Baggage := [(k, v)] } := by
  simp only [textExtracterC, List.foldl_cons, List.foldl_nil]
  rw [textProcessKey_traceID' _ K1 _ h1]
  rw [textProcessKey_spanID' _ K2 _ h2]
  rw [textProcessKey_parentSpanID' _ K3 _ h3]
  rw [textProcessKey_flags' _ K4 _ h4]
  rw [textProcessKey_baggage' _ Pfx k v h5]
  rw [idFromHex_idToHex c.TraceID hT64]
  rw [idFromHex_idToHex c.SpanID hS64]
  rw [idFromHex_idToHex c.ParentID hP64]
  rw [goParseUint10_format c.Flags hF64]
  simp [hT, alSet]

/-! ## Binary codec lemmas -/

theorem ioReadFull_exact (pre post : List Nat) (n : Nat) (h : pre.length = n) :
    ioReadFull (pre ++ post) n = .ok (pre, post) := by
  unfold ioReadFull
  rw [if_pos (by rw [List.length_append]; omega)]
  rw [show (pre ++ post).take n = pre from by rw [← h]; exact List.take_left pre post]
  rw [show (pre ++ post).drop n = post from by rw [← h]; exact List.drop_left pre post]

theorem toInt64_small (u : Nat) (h : u < 2 ^ 63) : toInt64 u = (u : Int) := by
  unfold toInt64
  rw [if_pos h]

theorem readBaggage_full (es : List (Str × Str)) (acc : List (Str × Str))
    (h : ∀ kv ∈ es, kv.1 ≠ [] ∧ kv.1.length < 2 ^ 63 ∧ kv.2.length < 2 ^ 63) :
    readBaggage (es.flatMap entryBytes) acc es.length =
      .ok (es.foldl (fun m kv => alSet m kv.1 kv.2) acc) := by
  induction es generalizing acc with
  | nil => rfl
  | cons kv rest ih =>
      obtain ⟨hk, hkl, hvl⟩ := h kv (by simp)
      simp only [List.flatMap_cons, List.length_cons, List.foldl_cons]
      have hshape : entryBytes kv ++ rest.flatMap entryBytes =
          (be8 kv.1.length ++ be8 kv.2.length) ++
            ((kv.1 ++ kv.2) ++ rest.flatMap entryBytes) := by
        unfold entryBytes
        simp [List.append_assoc]
      have hio1 : ioReadFull (entryBytes kv ++ rest.flatMap entryBytes) 16 =
          .ok (be8 kv.1.length ++ be8 kv.2.length,
               (kv.1 ++ kv.2) ++ rest.flatMap entryBytes) := by
        rw [hshape]
        exact ioReadFull_exact _ _ 16 (by rw [List.length_append, be8_length, be8_length])
      have hkl64 : beUint64 (be8 kv.1.length ++ be8 kv.2.length) = kv.1.length :=
        beUint64_be8_append _ _ (by omega)
      have hdrop : (be8 kv.1.length ++ be8 kv.2.length).drop 8 = be8 kv.2.length :=
        be8_append_drop _ _
      have hvl64 : beUint64 (be8 kv.2.length) = kv.2.length :=
        beUint64_be8 _ (by omega)
      have hcond : ¬(toInt64 kv.1.length ≤ 0 ∨ toInt64 kv.2.length < 0) := by
        rw [toInt64_small _ hkl, toInt64_small _ hvl]
        push_neg
        constructor
        · have : kv.1.length ≠ 0 := fun hc => hk (List.length_eq_zero.mp hc)
          omega
        · omega
      have hio2 : ioReadFull ((kv.1 ++ kv.2) ++ rest.flatMap entryBytes)
          ((toInt64 kv.1.length).toNat + (toInt64 kv.2.length).toNat) =
          .ok (kv.1 ++ kv.2, rest.flatMap entryBytes) := by
        rw [toInt64_small _ hkl, toInt64_small _ hvl]
        exact ioReadFull_exact _ _ _ (by rw [List.length_append]; simp)
      unfold readBaggage
      simp only [hio1, hkl64, hdrop, hvl64, if_neg hcond, hio2]
      rw [toInt64_small _ hkl]
      simp only [Int.toNat_ofNat, List.take_left, List.drop_left]
      exact ih (alSet acc kv.1 kv.2) fun kv' hkv' => h kv' (List.mem_cons_of_mem _ hkv')

theorem entryBytes_length (kv : Str × Str) : (entryBytes kv).length = entrySize kv := by
  unfold entryBytes entrySize
  simp only [List.length_append, be8_length]

theorem entrySize_ge (kv : Str × Str) (hk : kv.1 ≠ []) : 17 ≤ entrySize kv := by
  unfold entrySize
  have : 0 < kv.1.length := List.length_pos.mpr hk
  omega

theorem mem_map_add_ge (rb : List Nat) (e x : Nat) (hx : x ∈ rb.map (· + e)) :
    e ≤ x := by
  simp at hx
  obtain ⟨y, _, rfl⟩ := hx
  omega

theorem mem_map_add_iff (rb : List Nat) (e x : Nat) (hge : e ≤ x) :
    x ∈ rb.map (· + e) ↔ x - e ∈ rb := by
  simp only [List.mem_map]
  constructor
  · rintro ⟨y, hy, rfl⟩
    simpa using hy
  · intro h
    exact ⟨x - e, h, by omega⟩

/-- Truncating the encoded entry list strictly short of its full
length makes the baggage loop fail: with `io.EOF` when the cut sits
exactly at the start of one of the loop's reads, with "span context not
found" when it cuts a read short. -/
theorem readBaggage_truncated (es : List (Str × Str)) (acc : List (Str × Str))
    (h : ∀ kv ∈ es, kv.1 ≠ [] ∧ kv.1.length < 2 ^ 63 ∧ kv.2.length < 2 ^ 63)
    (l : Nat) (hl : l < (es.flatMap entryBytes).length) :
    readBaggage ((es.flatMap entryBytes).take l) acc es.length =
      .error (if l ∈ relBoundaries es then .eof else .spanContextNotFound) := by
  induction es generalizing acc l with
  | nil => simp at hl
  | cons kv rest ih =>
      obtain ⟨hk, hkl, hvl⟩ := h kv (by simp)
      have hke : 0 < kv.1.length := List.length_pos.mpr hk
      have hsz := entrySize_ge kv hk
      have hflat : (kv :: rest).flatMap entryBytes =
          (be8 kv.1.length ++ be8 kv.2.length) ++
            ((kv.1 ++ kv.2) ++ rest.flatMap entryBytes) := by
        simp only [List.flatMap_cons]
        unfold entryBytes
        simp [List.append_assoc]
      have hlen : ((kv :: rest).flatMap entryBytes).length =
          entrySize kv + (rest.flatMap entryBytes).length := by
        simp only [List.flatMap_cons, List.length_append, entryBytes_length]
      have hbnd : relBoundaries (kv :: rest) =
          0 :: 16 :: (relBoundaries rest).map (· + entrySize kv) := rfl
      simp only [List.length_cons]
      by_cases h0 : l = 0
      · subst h0
        rw [List.take_zero]
        have hio : ioReadFull ([] : List Nat) 16 = .error .eof := rfl
        unfold readBaggage
        simp only [hio]
        rw [hbnd, if_pos (by simp)]
        rfl
      by_cases h16lt : l < 16
      · have htakelen : (((kv :: rest).flatMap entryBytes).take l).length = l :=
          List.length_take_of_le (by omega)
        have hio : ioReadFull (((kv :: rest).flatMap entryBytes).take l) 16 =
            .error .unexpectedEOF := by
          unfold ioReadFull
          rw [if_neg (by omega), if_neg (by omega)]
        unfold readBaggage
        simp only [hio]
        rw [hbnd, if_neg (by
          simp only [List.mem_cons]
          rintro (hc | hc | hc)
          · omega
          · omega
          · have := mem_map_add_ge _ _ _ hc
            omega)]
        rfl
      -- l ≥ 16: the 16-byte entry header reads fine and decodes the
      -- true lengths
      have h16 : 16 ≤ l := by omega
      have htake16 : ((kv :: rest).flatMap entryBytes).take l =
          (be8 kv.1.length ++ be8 kv.2.length) ++
            (((kv.1 ++ kv.2) ++ rest.flatMap entryBytes).take (l - 16)) := by
        rw [hflat, List.take_append_eq_append_take]
        congr 1
        exact List.take_of_length_le
          (by rw [List.length_append, be8_length, be8_length]; omega)
      have hio1 : ioReadFull (((kv :: rest).flatMap entryBytes).take l) 16 =
          .ok (be8 kv.1.length ++ be8 kv.2.length,
               ((kv.1 ++ kv.2) ++ rest.flatMap entryBytes).take (l - 16)) := by
        rw [htake16]
        exact ioReadFull_exact _ _ 16 (by rw [List.length_append, be8_length, be8_length])
      have hkl64 : beUint64 (be8 kv.1.length ++ be8 kv.2.length) = kv.1.length :=
        beUint64_be8_append _ _ (by omega)
      have hdrop8 : (be8 kv.1.length ++ be8 kv.2.length).drop 8 = be8 kv.2.length :=
        be8_append_drop _ _
      have hvl64 : beUint64 (be8 kv.2.length) = kv.2.length :=
        beUint64_be8 _ (by omega)
      have hcond : ¬(toInt64 kv.1.length ≤ 0 ∨ toInt64 kv.2.length < 0) := by
        rw [toInt64_small _ hkl, toInt64_small _ hvl]
        push_neg
        constructor
        · omega
        · omega
      unfold readBaggage
      simp only [hio1, hkl64, hdrop8, hvl64, if_neg hcond]
      rw [toInt64_small _ hkl, toInt64_small _ hvl]
      simp only [Int.toNat_ofNat]
      by_cases hbody : l - 16 < kv.1.length + kv.2.length
      · -- the body read is cut short (or starts right at the cut,
        -- when l = 16)
        have hlen2 : ((((kv.1 ++ kv.2) ++ rest.flatMap entryBytes)).take (l - 16)).length
            = l - 16 :=
          List.length_take_of_le (by
            rw [List.length_append, List.length_append]
            unfold entrySize at hlen
            omega)
        by_cases h16eq : l = 16
        · have hio2 : ioReadFull (((kv.1 ++ kv.2) ++ rest.flatMap entryBytes).take (l - 16))
              (kv.1.length + kv.2.length) = .error .eof := by
            unfold ioReadFull
            rw [if_neg (by omega), if_pos (by omega)]
          simp only [hio2]
          rw [hbnd, if_pos (by simp [h16eq])]
          rfl
        · have hio2 : ioReadFull (((kv.1 ++ kv.2) ++ rest.flatMap entryBytes).take (l - 16))
              (kv.1.length + kv.2.length) = .error .unexpectedEOF := by
            unfold ioReadFull
            rw [if_neg (by omega), if_neg (by omega)]
          simp only [hio2]
          rw [hbnd, if_neg (by
            simp only [List.mem_cons]
            rintro (hc | hc | hc)
            · omega
            · omega
            · have := mem_map_add_ge _ _ _ hc
              unfold entrySize at this
              omega)]
          rfl
      · -- the whole entry is consumed; recurse into the remaining
        -- entries
        have hesz : entrySize kv ≤ l := by
          unfold entrySize
          omega
        have htakebody : ((kv.1 ++ kv.2) ++ rest.flatMap entryBytes).take (l - 16) =
            (kv.1 ++ kv.2) ++
              ((rest.flatMap entryBytes).take (l - 16 - (kv.1.length + kv.2.length))) := by
          rw [List.take_append_eq_append_take, List.length_append]
          congr 1
          exact List.take_of_length_le (by rw [List.length_append]; omega)
        have hio2 : ioReadFull (((kv.1 ++ kv.2) ++ rest.flatMap entryBytes).take (l - 16))
            (kv.1.length + kv.2.length) =
            .ok (kv.1 ++ kv.2,
                 (rest.flatMap entryBytes).take (l - 16 - (kv.1.length + kv.2.length))) := by
          rw [htakebody]
          exact ioReadFull_exact _ _ _ (by rw [List.length_append])
        simp only [hio2, List.take_left, List.drop_left]
        have hlrec : l - 16 - (kv.1.length + kv.2.length) = l - entrySize kv := by
          unfold entrySize
          omega
        rw [hlrec]
        have hlrec2 : l - entrySize kv < (rest.flatMap entryBytes).length := by
          omega
        rw [ih (alSet acc kv.1 kv.2)
          (fun kv' hkv' => h kv' (List.mem_cons_of_mem _ hkv'))
          (l - entrySize kv) hlrec2]
        congr 1
        rw [hbnd]
        by_cases hmem : l - entrySize kv ∈ relBoundaries rest
        · rw [if_pos hmem, if_pos (by
            simp only [List.mem_cons]
            right; right
            exact (mem_map_add_iff _ _ _ hesz).mpr hmem)]
        · rw [if_neg hmem, if_neg (by
            simp only [List.mem_cons]
            rintro (hc | hc | hc)
            · omega
            · omega
            · exact hmem ((mem_map_add_iff _ _ _ hesz).mp hc))]

/-- The binary round trip at the level of the codec bodies; every
baggage key must be non-empty, or the extracter rejects the payload. -/
theorem binaryExtract_binaryInject (c : SpanContext) (hwf : ctxWF c)
    (hkeys : ∀ kv ∈ c.Baggage, kv.1 ≠ []) :
    binaryExtracterBytes (binaryInjecterBytes c) = .ok c := by
  obtain ⟨hT64, hS64, hP64, hF64, hN64, hlens, hnd⟩ := hwf
  have hsplit : binaryInjecterBytes c =
      (be8 c.TraceID ++ (be8 c.SpanID ++ (be8 c.ParentID ++ (be8 c.Flags ++
        be8 c.Baggage.length)))) ++ c.Baggage.flatMap entryBytes := by
    unfold binaryInjecterBytes
    simp [List.append_assoc]
  have hio : ioReadFull (binaryInjecterBytes c) 40 =
      .ok (be8 c.TraceID ++ (be8 c.SpanID ++ (be8 c.ParentID ++ (be8 c.Flags ++
            be8 c.Baggage.length))),
           c.Baggage.flatMap entryBytes) := by
    rw [hsplit]
    exact ioReadFull_exact _ _ 40 rfl
  have hrb : readBaggage (c.Baggage.flatMap entryBytes) [] c.Baggage.length =
      .ok c.Baggage := by
    rw [readBaggage_full c.Baggage []
      (fun kv hkv => ⟨hkeys kv hkv, (hlens kv hkv).1, (hlens kv hkv).2⟩)]
    rw [foldl_alSet_fresh c.Baggage [] (by simp [alKeys]) hnd]
    rw [List.nil_append]
  unfold binaryExtracterBytes
  simp only [hio]
  rw [show beUint64 (be8 c.TraceID ++ (be8 c.SpanID ++ (be8 c.ParentID ++ (be8 c.Flags ++
        be8 c.Baggage.length)))) = c.TraceID from beUint64_be8_append _ _ hT64]
  simp only [be8_append_drop, be8_append_drop16, be8_append_drop24, be8_append_drop32]
  rw [show beUint64 (be8 c.SpanID ++ (be8 c.ParentID ++ (be8 c.Flags ++
        be8 c.Baggage.length))) = c.SpanID from beUint64_be8_append _ _ hS64]
  rw [show beUint64 (be8 c.ParentID ++ (be8 c.Flags ++ be8 c.Baggage.length)) =
        c.ParentID from beUint64_be8_append _ _ hP64]
  rw [show beUint64 (be8 c.Flags ++ be8 c.Baggage.length) = c.Flags from
        beUint64_be8_append _ _ hF64]
  rw [show beUint64 (be8 c.Baggage.length) = c.Baggage.length from
        beUint64_be8 _ hN64]
  simp only [hrb]

theorem binaryInjecterBytes_split (c : SpanContext) :
    binaryInjecterBytes c =
      (be8 c.TraceID ++ (be8 c.SpanID ++ (be8 c.ParentID ++ (be8 c.Flags ++
        be8 c.Baggage.length)))) ++ c.Baggage.flatMap entryBytes := by
  unfold binaryInjecterBytes
  simp [List.append_assoc]

theorem binaryInjecterBytes_length (c : SpanContext) :
    (binaryInjecterBytes c).length = 40 + (c.Baggage.flatMap entryBytes).length := by
  rw [binaryInjecterBytes_split, List.length_append]
  rfl

/-! ## C4: propagation round trip -/

/-- C4 (amended): for every SpanContext with non-zero TraceID (well
formed in the sense of the Go value ranges), injecting into an empty
carrier and extracting yields the same context in all fields, for the
text-map format unconditionally and for the binary format provided
every baggage key is non-empty (a zero-length key is rejected by the
binary extracter); text-map extraction matches its keys
case-insensitively. -/
theorem C4_propagation_roundtrip (c : SpanContext) (hT : c.TraceID ≠ 0)
    (hwf : ctxWF c) :
    Extract Format.textMap (Inject (.ours c) Format.textMap (Carrier.text [])).2 =
      .ok c ∧
    ((∀ kv ∈ c.Baggage, kv.1 ≠ []) →
      Extract Format.binary (Inject (.ours c) Format.binary (Carrier.bin [])).2 =
        .ok c) ∧
    (∀ K1 K2 K3 K4 Pfx k v : Str,
      goToLower K1 = keyTraceID → goToLower K2 = keySpanID →
      goToLower K3 = keyParentSpanID → goToLower K4 = keyFlags →
      goToLower Pfx = keyBaggage →
      textExtracterC [(K1, idToHex c.TraceID), (K2, idToHex c.SpanID),
        (K3, idToHex c.ParentID), (K4, formatUint10 c.Flags), (Pfx ++ k, v)] =
        .ok { TraceID := c.TraceID, ParentID := c.ParentID, SpanID := c.SpanID,
              Flags := c.Flags, Baggage := [(k, v)] }) := by
  refine ⟨?_, ?_, ?_⟩
  · show textExtracterC (textInjecterC c []) = .ok c
    exact textExtract_textInject c hT hwf
  · intro hkeys
    show binaryExtracterBytes ([] ++ binaryInjecterBytes c) = .ok c
    rw [List.nil_append]
    exact binaryExtract_binaryInject c hwf hkeys
  · intro K1 K2 K3 K4 Pfx k v h1 h2 h3 h4 h5
    exact textExtract_case_insensitive c hT hwf.1 hwf.2.1 hwf.2.2.1 hwf.2.2.2.1
      K1 K2 K3 K4 Pfx k v h1 h2 h3 h4 h5

/-- C4 counterexample: the claim as stated fails for the binary format
at a context with an empty baggage key — the round trip errors instead
of returning the context. -/
theorem C4_binary_empty_key_counterexample :
    ({ TraceID := 1, ParentID := 0, SpanID := 2, Flags := 0,
       Baggage := [([], [118])] } : SpanContext).TraceID ≠ 0 ∧
    Extract Format.binary
      (Inject (.ours { TraceID := 1, ParentID := 0, SpanID := 2, Flags := 0,
                       Baggage := [([], [118])] }) Format.binary (Carrier.bin [])).2 =
      .error .spanContextNotFound := by
  constructor
  · decide
  · rfl

/-- Witness for C4 at the S1/S2 scenario context
`{T=3, P=2, S=1, Flags=1, Baggage={k1: v1, k2: ""}}`. -/
theorem C4_propagation_roundtrip_witness :
    Extract Format.textMap (Inject
      (.ours { TraceID := 3, ParentID := 2, SpanID := 1, Flags := 1,
               Baggage := [(str (r"k1"), str (r"v1")), (str (r"k2"), [])] })
      Format.textMap (Carrier.text [])).2 =
      .ok { TraceID := 3, ParentID := 2, SpanID := 1, Flags := 1,
            Baggage := [(str (r"k1"), str (r"v1")), (str (r"k2"), [])] } ∧
    Extract Format.binary (Inject
      (.ours { TraceID := 3, ParentID := 2, SpanID := 1, Flags := 1,
               Baggage := [(str (r"k1"), str (r"v1")), (str (r"k2"), [])] })
      Format.binary (Carrier.bin [])).2 =
      .ok { TraceID := 3, ParentID := 2, SpanID := 1, Flags := 1,
            Baggage := [(str (r"k1"), str (r"v1")), (str (r"k2"), [])] } := by
  have h := C4_propagation_roundtrip
    { TraceID := 3, ParentID := 2, SpanID := 1, Flags := 1,
      Baggage := [(str (r"k1"), str (r"v1")), (str (r"k2"), [])] }
    (by decide) (by decide)
  exact ⟨h.1, h.2.1 (by decide)⟩

/-! ## C5: truncated binary payloads -/

/-- C5 (amended): truncating a valid binary payload strictly short of
its length always makes extraction fail.  The error is "span context
not found" exactly when the cut lands inside one of the extracter's
reads; when it lands exactly at the start of a read (the empty prefix,
the end of the 40-byte header, or an entry-header/entry-body seam) the
code reports the raw `io.EOF` instead.  A baggage entry header whose
KeyLen is zero (or negative as a signed 64-bit value), or whose
ValueLen is negative, fails with "span context not found". -/
theorem C5_truncated_binary (c : SpanContext) (hwf : ctxWF c)
    (hkeys : ∀ kv ∈ c.Baggage, kv.1 ≠ [])
    (l : Nat) (hl : l < (binaryInjecterBytes c).length) :
    (binaryExtracterBytes ((binaryInjecterBytes c).take l) =
      .error (if l ∈ payloadBoundaries c then .eof else .spanContextNotFound)) ∧
    (∀ (T S P F n klu vlu : Nat) (rest : List Nat),
      1 ≤ n → n < 2 ^ 64 → klu < 2 ^ 64 → vlu < 2 ^ 64 →
      (toInt64 klu ≤ 0 ∨ toInt64 vlu < 0) →
      binaryExtracterBytes (be8 T ++ (be8 S ++ (be8 P ++ (be8 F ++ (be8 n ++
        (be8 klu ++ (be8 vlu ++ rest))))))) = .error .spanContextNotFound) := by
  obtain ⟨hT64, hS64, hP64, hF64, hN64, hlens, hnd⟩ := hwf
  have hlenp := binaryInjecterBytes_length c
  constructor
  · by_cases h40 : l < 40
    · by_cases h0 : l = 0
      · subst h0
        rw [List.take_zero]
        rw [if_pos (by unfold payloadBoundaries; simp)]
        rfl
      · have htake : (binaryInjecterBytes c).take l =
            ((be8 c.TraceID ++ (be8 c.SpanID ++ (be8 c.ParentID ++ (be8 c.Flags ++
              be8 c.Baggage.length)))).take l) := by
          rw [binaryInjecterBytes_split, List.take_append_eq_append_take]
          rw [show l - (be8 c.TraceID ++ (be8 c.SpanID ++ (be8 c.ParentID ++ (be8 c.Flags ++
              be8 c.Baggage.length)))).length = 0 from by
            have : (be8 c.TraceID ++ (be8 c.SpanID ++ (be8 c.ParentID ++ (be8 c.Flags ++
              be8 c.Baggage.length)))).length = 40 := rfl
            omega]
          rw [List.take_zero, List.append_nil]
        have hlent : ((binaryInjecterBytes c).take l).length = l :=
          List.length_take_of_le (by omega)
        have hio : ioReadFull ((binaryInjecterBytes c).take l) 40 =
            .error .unexpectedEOF := by
          unfold ioReadFull
          rw [if_neg (by omega), if_neg (by omega)]
        unfold binaryExtracterBytes
        simp only [hio]
        rw [if_neg (by
          unfold payloadBoundaries
          simp only [List.mem_cons]
          rintro (hc | hc)
          · omega
          · have := mem_map_add_ge _ _ _ hc
            omega)]
        rfl
    · have h40' : 40 ≤ l := by omega
      have hhdr40 : (be8 c.TraceID ++ (be8 c.SpanID ++ (be8 c.ParentID ++ (be8 c.Flags ++
          be8 c.Baggage.length)))).length = 40 := rfl
      have htake : (binaryInjecterBytes c).take l =
          (be8 c.TraceID ++ (be8 c.SpanID ++ (be8 c.ParentID ++ (be8 c.Flags ++
            be8 c.Baggage.length)))) ++
            ((c.Baggage.flatMap entryBytes).take (l - 40)) := by
        rw [binaryInjecterBytes_split, List.take_append_eq_append_take]
        rw [hhdr40]
        congr 1
        exact List.take_of_length_le (by omega)
      have hio : ioReadFull ((binaryInjecterBytes c).take l) 40 =
          .ok (be8 c.TraceID ++ (be8 c.SpanID ++ (be8 c.ParentID ++ (be8 c.Flags ++
                be8 c.Baggage.length))),
               (c.Baggage.flatMap entryBytes).take (l - 40)) := by
        rw [htake]
        exact ioReadFull_exact _ _ 40 rfl
      have hrb := readBaggage_truncated c.Baggage []
        (fun kv hkv => ⟨hkeys kv hkv, (hlens kv hkv).1, (hlens kv hkv).2⟩)
        (l - 40) (by omega)
      unfold binaryExtracterBytes
      simp only [hio]
      simp only [be8_append_drop, be8_append_drop16, be8_append_drop24, be8_append_drop32]
      rw [show beUint64 (be8 c.Baggage.length) = c.Baggage.length from
            beUint64_be8 _ hN64]
      simp only [hrb]
      congr 1
      unfold payloadBoundaries
      by_cases hmem : l - 40 ∈ relBoundaries c.Baggage
      · rw [if_pos hmem, if_pos (by
          simp only [List.mem_cons]
          right
          exact (mem_map_add_iff _ _ _ h40').mpr hmem)]
      · rw [if_neg hmem, if_neg (by
          simp only [List.mem_cons]
          rintro (hc | hc)
          · omega
          · exact hmem ((mem_map_add_iff _ _ _ h40').mp hc))]
  · intro T S P F n klu vlu rest h1n hn64 hklu hvlu hcond
    have hio : ioReadFull (be8 T ++ (be8 S ++ (be8 P ++ (be8 F ++ (be8 n ++
        (be8 klu ++ (be8 vlu ++ rest))))))) 40 =
        .ok (be8 T ++ (be8 S ++ (be8 P ++ (be8 F ++ be8 n))),
             be8 klu ++ (be8 vlu ++ rest)) := by
      rw [show be8 T ++ (be8 S ++ (be8 P ++ (be8 F ++ (be8 n ++
          (be8 klu ++ (be8 vlu ++ rest)))))) =
          (be8 T ++ (be8 S ++ (be8 P ++ (be8 F ++ be8 n)))) ++
            (be8 klu ++ (be8 vlu ++ rest)) from by simp [List.append_assoc]]
      exact ioReadFull_exact _ _ 40 rfl
    have hrb : readBaggage (be8 klu ++ (be8 vlu ++ rest)) [] n =
        .error .spanContextNotFound := by
      obtain ⟨m, rfl⟩ : ∃ m, n = m + 1 := ⟨n - 1, by omega⟩
      have hio2 : ioReadFull (be8 klu ++ (be8 vlu ++ rest)) 16 =
          .ok (be8 klu ++ be8 vlu, rest) := by
        rw [show be8 klu ++ (be8 vlu ++ rest) = (be8 klu ++ be8 vlu) ++ rest from by
          simp [List.append_assoc]]
        exact ioReadFull_exact _ _ 16 rfl
      unfold readBaggage
      simp only [hio2]
      rw [show beUint64 (be8 klu ++ be8 vlu) = klu from beUint64_be8_append _ _ hklu]
      rw [be8_append_drop]
      rw [show beUint64 (be8 vlu) = vlu from beUint64_be8 _ hvlu]
      rw [if_pos hcond]
    unfold binaryExtracterBytes
    simp only [hio]
    simp only [be8_append_drop, be8_append_drop16, be8_append_drop24, be8_append_drop32]
    rw [show beUint64 (be8 n) = n from beUint64_be8 _ hn64]
    simp only [hrb]

/-- C5 counterexample: the claim as stated requires the "span context
not found" error on every strict prefix including the empty one, but
the empty prefix fails with the generic `io.EOF` error. -/
theorem C5_empty_prefix_counterexample :
    binaryExtracterBytes ((binaryInjecterBytes
      { TraceID := 1, ParentID := 0, SpanID := 2, Flags := 0, Baggage := [] }).take 0) =
      .error .eof ∧
    OTErr.eof ≠ OTErr.spanContextNotFound := by
  constructor
  · rfl
  · decide

/-- Witness for C5 at a concrete context and a cut inside the header. -/
theorem C5_truncated_binary_witness :
    binaryExtracterBytes ((binaryInjecterBytes
      { TraceID := 1, ParentID := 0, SpanID := 2, Flags := 0, Baggage := [] }).take 7) =
      .error (if 7 ∈ payloadBoundaries
        { TraceID := 1, ParentID := 0, SpanID := 2, Flags := 0, Baggage := [] }
        then .eof else .spanContextNotFound) :=
  (C5_truncated_binary
    { TraceID := 1, ParentID := 0, SpanID := 2, Flags := 0, Baggage := [] }
    (by decide) (by decide) 7 (by decide)).1

/-! ## C10: empty tag keys and log events never come back -/

theorem tagSet_keys_ne (m : List (Str × Value)) (k : Str) (v : Value)
    (hm : ∀ kv ∈ m, kv.1 ≠ []) (hk : k ≠ []) :
    ∀ kv ∈ tagSet m k v, kv.1 ≠ [] := by
  induction m with
  | nil =>
      intro kv hkv
      unfold tagSet at hkv
      simp at hkv
      rw [hkv]
      exact hk
  | cons kv' rest ih =>
      intro kv hkv
      obtain ⟨k', v'⟩ := kv'
      unfold tagSet at hkv
      split at hkv
      · rcases List.mem_cons.mp hkv with rfl | hmem
        · exact hk
        · exact hm kv (List.mem_cons_of_mem _ hmem)
      · rcases List.mem_cons.mp hkv with rfl | hmem
        · exact hm (k', v') (by simp)
        · exact ih (fun x hx => hm x (List.mem_cons_of_mem _ hx)) kv hmem

theorem scanSpanBase_good (st : Int × RawSpan × List RawSpan) (row : JoinRow)
    (hcur : (∀ kv ∈ st.2.1.Tags, kv.1 ≠ []) ∧ (∀ lg ∈ st.2.1.Logs, lg.Event ≠ [])) :
    (∀ kv ∈ (scanSpanBase st row).Tags, kv.1 ≠ []) ∧
      (∀ lg ∈ (scanSpanBase st row).Logs, lg.Event ≠ []) := by
  unfold scanSpanBase
  split
  · exact ⟨by simp [emptyRawSpan], by simp [emptyRawSpan]⟩
  · exact hcur

theorem scanSpanTag_good (span1 : RawSpan) (tag : Option (Str × Str × Option Int))
    (h : (∀ kv ∈ span1.Tags, kv.1 ≠ []) ∧ (∀ lg ∈ span1.Logs, lg.Event ≠ [])) :
    (∀ kv ∈ (scanSpanTag span1 tag).Tags, kv.1 ≠ []) ∧
      (∀ lg ∈ (scanSpanTag span1 tag).Logs, lg.Event ≠ []) := by
  match tag with
  | none => exact h
  | some (k, v, tt) =>
      simp only [scanSpanTag]
      by_cases hk : k ≠ []
      · rw [if_pos hk]
        match tt with
        | none => exact ⟨tagSet_keys_ne _ k _ h.1 hk, h.2⟩
        | some t =>
            refine ⟨h.1, ?_⟩
            intro lg hlg
            rcases List.mem_append.mp hlg with hmem | hmem
            · exact h.2 lg hmem
            · simp at hmem
              rw [hmem]
              exact hk
      · rw [if_neg hk]
        exact h

theorem scanStep_good (st : Int × RawSpan × List RawSpan) (row : JoinRow)
    (hcur : (∀ kv ∈ st.2.1.Tags, kv.1 ≠ []) ∧ (∀ lg ∈ st.2.1.Logs, lg.Event ≠ []))
    (hacc : ∀ s ∈ st.2.2, (∀ kv ∈ s.Tags, kv.1 ≠ []) ∧ (∀ lg ∈ s.Logs, lg.Event ≠ [])) :
    ((∀ kv ∈ (scanStep st row).2.1.Tags, kv.1 ≠ []) ∧
      (∀ lg ∈ (scanStep st row).2.1.Logs, lg.Event ≠ [])) ∧
    (∀ s ∈ (scanStep st row).2.2,
      (∀ kv ∈ s.Tags, kv.1 ≠ []) ∧ (∀ lg ∈ s.Logs, lg.Event ≠ [])) := by
  constructor
  · have h1 : (scanStep st row).2.1 = scanSpanTag (scanSpanBase st row) row.tag := rfl
    rw [h1]
    exact scanSpanTag_good _ _ (scanSpanBase_good st row hcur)
  · intro s hs
    have h2 : (scanStep st row).2.2 = scanAcc st row := rfl
    rw [h2] at hs
    unfold scanAcc at hs
    split at hs
    · rcases List.mem_append.mp hs with hmem | hmem
      · exact hacc s hmem
      · simp at hmem
        rw [hmem]
        exact hcur
    · exact hacc s hs

theorem scan_foldl_good (rows : List JoinRow) (st : Int × RawSpan × List RawSpan)
    (hcur : (∀ kv ∈ st.2.1.Tags, kv.1 ≠ []) ∧ (∀ lg ∈ st.2.1.Logs, lg.Event ≠ []))
    (hacc : ∀ s ∈ st.2.2, (∀ kv ∈ s.Tags, kv.1 ≠ []) ∧ (∀ lg ∈ s.Logs, lg.Event ≠ [])) :
    ((∀ kv ∈ (rows.foldl scanStep st).2.1.Tags, kv.1 ≠ []) ∧
      (∀ lg ∈ (rows.foldl scanStep st).2.1.Logs, lg.Event ≠ [])) ∧
    (∀ s ∈ (rows.foldl scanStep st).2.2,
      (∀ kv ∈ s.Tags, kv.1 ≠ []) ∧ (∀ lg ∈ s.Logs, lg.Event ≠ [])) := by
  induction rows generalizing st with
  | nil => exact ⟨hcur, hacc⟩
  | cons r rest ih =>
      simp only [List.foldl_cons]
      exact ih (scanStep st r) (scanStep_good st r hcur hacc).1 (scanStep_good st r hcur hacc).2

theorem scanSpans_good (rows : List JoinRow) :
    ∀ sp ∈ scanSpans rows,
      (∀ kv ∈ sp.Tags, kv.1 ≠ []) ∧ (∀ lg ∈ sp.Logs, lg.Event ≠ []) := by
  intro sp hsp
  simp only [scanSpans, scanSpansOut] at hsp
  have h := scan_foldl_good rows (0, emptyRawSpan, [])
    ⟨by simp [emptyRawSpan], by simp [emptyRawSpan]⟩ (by simp)
  split at hsp
  · rcases List.mem_append.mp hsp with hmem | hmem
    · exact h.2 sp hmem
    · simp at hmem
      rw [hmem]
      exact h.1
  · exact h.2 sp hsp

/-- C10: every span read back through `TraceByID` or `SpanByID` has no
tag with an empty key and no log with an empty event: the scanner
treats a NULL key (the LEFT JOIN padding) and the empty string alike
and skips both, so a tags row stored under the empty key is never
returned. -/
theorem C10_no_empty_tag_keys (db : DB) (id : Nat) :
    (∀ sp ∈ (traceByID db id).Spans,
      (∀ kv ∈ sp.Tags, kv.1 ≠ []) ∧ (∀ lg ∈ sp.Logs, lg.Event ≠ [])) ∧
    (∀ sp, spanByID db id = some sp →
      (∀ kv ∈ sp.Tags, kv.1 ≠ []) ∧ (∀ lg ∈ sp.Logs, lg.Event ≠ [])) := by
  constructor
  · intro sp hsp
    exact scanSpans_good _ sp hsp
  · intro sp hsp
    simp only [spanByID] at hsp
    split at hsp
    · exact absurd hsp (by simp)
    next s rest heq =>
      simp only [Option.some.injEq] at hsp
      subst hsp
      exact scanSpans_good _ s (by rw [heq]; simp)

/-- Witness for C10: a database holding a span that stores a tag under
the empty key (and a well-keyed tag and log); the read path never
returns the empty-keyed tag. -/
theorem C10_no_empty_tag_keys_witness :
    ((traceByID (Store emptyDB
        { ctx := { TraceID := 10, ParentID := 0, SpanID := 10, Flags := 1, Baggage := [] },
          ServiceName := str (r"s1"), OperationName := str (r"op1"),
          StartTime := 100, FinishTime := 200,
          Tags := [([], .vStr (str (r"x"))), (str (r"url"), .vStr (str (r"/hello")))],
          Logs := [{ Event := str (r"ev"), Payload := .vNull, Timestamp := 150 }] }) 10).Spans.all
      fun sp => (sp.Tags.all fun kv => !kv.1.isEmpty) &&
        (sp.Logs.all fun lg => !lg.Event.isEmpty)) = true := by
  have h := C10_no_empty_tag_keys (Store emptyDB
    { ctx := { TraceID := 10, ParentID := 0, SpanID := 10, Flags := 1, Baggage := [] },
      ServiceName := str (r"s1"), OperationName := str (r"op1"),
      StartTime := 100, FinishTime := 200,
      Tags := [([], .vStr (str (r"x"))), (str (r"url"), .vStr (str (r"/hello")))],
      Logs := [{ Event := str (r"ev"), Payload := .vNull, Timestamp := 150 }] }) 10
  rw [List.all_eq_true]
  intro sp hsp
  have h2 := h.1 sp hsp
  rw [Bool.and_eq_true, List.all_eq_true, List.all_eq_true]
  constructor
  · intro kv hkv
    have h3 := h2.1 kv hkv
    simpa using h3
  · intro lg hlg
    have h3 := h2.2 lg hlg
    simpa using h3

/-! ## C3: Store/TraceByID round trip — int64 and table lemmas -/

theorem fromInt64_toInt64 (u : Nat) (h : u < 2 ^ 64) : fromInt64 (toInt64 u) = u := by
  unfold fromInt64 toInt64
  split
  · simp
  · rw [if_neg (by omega)]
    omega

theorem toInt64_inj (a b : Nat) (ha : a < 2 ^ 64) (hb : b < 2 ^ 64)
    (h : toInt64 a = toInt64 b) : a = b := by
  unfold toInt64 at h
  split at h <;> split at h <;> omega

theorem toInt64_ne_zero (u : Nat) (hu : u ≠ 0) (h64 : u < 2 ^ 64) : toInt64 u ≠ 0 := by
  unfold toInt64
  split <;> omega

theorem upsert_mem (rows : List SpanRow) (i tr : Int) (t : TimeRange) (sv op : Str)
    (row : SpanRow) (h : row ∈ upsertSpanRows rows i tr t sv op) :
    row ∈ rows ∨
    (row.id = i ∧ row.time = t ∧ row.service_name = sv ∧ row.operation_name = op ∧
      (row.trace_id = tr ∨ ∃ r ∈ rows, r.id = i ∧ row.trace_id = r.trace_id)) := by
  induction rows with
  | nil =>
      unfold upsertSpanRows at h
      simp at h
      right
      rw [h]
      exact ⟨rfl, rfl, rfl, rfl, Or.inl rfl⟩
  | cons r rest ih =>
      unfold upsertSpanRows at h
      split at h
      next heq =>
        rcases List.mem_cons.mp h with rfl | hmem
        · right
          exact ⟨heq, rfl, rfl, rfl, Or.inr ⟨r, by simp, heq, rfl⟩⟩
        · exact Or.inl (List.mem_cons_of_mem _ hmem)
      next hne =>
        rcases List.mem_cons.mp h with rfl | hmem
        · exact Or.inl (by simp)
        · rcases ih hmem with hm | ⟨h1, h2, h3, h4, h5⟩
          · exact Or.inl (List.mem_cons_of_mem _ hm)
          · refine Or.inr ⟨h1, h2, h3, h4, ?_⟩
            rcases h5 with h5 | ⟨r', hr', hr'2⟩
            · exact Or.inl h5
            · exact Or.inr ⟨r', List.mem_cons_of_mem _ hr', hr'2⟩

theorem find?_append_some {α} (p : α → Bool) (l1 l2 : List α) (a : α)
    (h : l1.find? p = some a) : (l1 ++ l2).find? p = some a := by
  induction l1 with
  | nil => simp at h
  | cons x rest ih =>
      by_cases hx : p x = true
      · rw [List.find?_cons_of_pos _ hx] at h
        rw [List.cons_append, List.find?_cons_of_pos _ hx]
        exact h
      · rw [List.find?_cons_of_neg _ (by simpa using hx)] at h
        rw [List.cons_append, List.find?_cons_of_neg _ (by simpa using hx)]
        exact ih h

theorem find?_append_none {α} (p : α → Bool) (l1 l2 : List α)
    (h : l1.find? p = none) : (l1 ++ l2).find? p = l2.find? p := by
  induction l1 with
  | nil => rfl
  | cons x rest ih =>
      by_cases hx : p x = true
      · rw [List.find?_cons_of_pos _ hx] at h
        simp at h
      · rw [List.find?_cons_of_neg _ (by simpa using hx)] at h
        rw [List.cons_append, List.find?_cons_of_neg _ (by simpa using hx)]
        exact ih h

theorem upsert_ids (rows : List SpanRow) (i tr : Int) (t : TimeRange) (sv op : Str) :
    (upsertSpanRows rows i tr t sv op).map (·.id) =
      if i ∈ rows.map (·.id) then rows.map (·.id) else rows.map (·.id) ++ [i] := by
  induction rows with
  | nil => simp [upsertSpanRows]
  | cons r rest ih =>
      unfold upsertSpanRows
      split
      next heq => simp [heq]
      next hne =>
        have hne' : i ≠ r.id := fun hc => hne hc.symm
        simp only [List.map_cons, ih]
        by_cases hmem : i ∈ rest.map (·.id)
        · rw [if_pos hmem, if_pos (List.mem_cons_of_mem _ hmem)]
        · rw [if_neg hmem, if_neg (by
            intro hc
            rcases List.mem_cons.mp hc with hc | hc
            · exact hne' hc
            · exact hmem hc)]
          simp

theorem rowLookup_upsert_self (rows : List SpanRow) (i tr : Int) (t : TimeRange) (sv op : Str) :
    rowLookup (upsertSpanRows rows i tr t sv op) i =
      some (match rowLookup rows i with
            | some r => { r with time := t, service_name := sv, operation_name := op }
            | none => { id := i, trace_id := tr, time := t, service_name := sv,
                        operation_name := op }) := by
  induction rows with
  | nil =>
      unfold upsertSpanRows rowLookup
      rw [List.find?_cons_of_pos _ (by simp)]
      rfl
  | cons r rest ih =>
      unfold upsertSpanRows
      split
      next heq =>
        unfold rowLookup
        rw [List.find?_cons_of_pos _ (by simp [heq]), List.find?_cons_of_pos _ (by simp [heq])]
      next hne =>
        unfold rowLookup at *
        rw [List.find?_cons_of_neg _ (by simpa using hne),
          List.find?_cons_of_neg _ (by simpa using hne)]
        exact ih

theorem rowLookup_upsert_ne (rows : List SpanRow) (i tr : Int) (t : TimeRange) (sv op : Str)
    (j : Int) (hj : j ≠ i) :
    rowLookup (upsertSpanRows rows i tr t sv op) j = rowLookup rows j := by
  induction rows with
  | nil =>
      unfold upsertSpanRows rowLookup
      rw [List.find?_cons_of_neg _ (by simp; omega)]
  | cons r rest ih =>
      unfold upsertSpanRows
      split
      next heq =>
        unfold rowLookup
        have hr : r.id ≠ j := by omega
        rw [List.find?_cons_of_neg _ (by simp; omega),
          List.find?_cons_of_neg _ (by simpa using hr)]
      next hne =>
        unfold rowLookup at *
        by_cases hr : r.id = j
        · rw [List.find?_cons_of_pos _ (by simpa using hr),
            List.find?_cons_of_pos _ (by simpa using hr)]
        · rw [List.find?_cons_of_neg _ (by simpa using hr),
            List.find?_cons_of_neg _ (by simpa using hr)]
          exact ih

theorem insert_present (rows : List SpanRow) (i tr : Int) (t : TimeRange)
    (h : rows.any (fun r => r.id = i) = true) :
    insertSpanIfAbsent rows i tr t = rows := by
  unfold insertSpanIfAbsent
  rw [if_pos h]

theorem insert_mem (rows : List SpanRow) (i tr : Int) (t : TimeRange) (row : SpanRow)
    (h : row ∈ insertSpanIfAbsent rows i tr t) :
    row ∈ rows ∨ row = { id := i, trace_id := tr, time := t, service_name := [],
                         operation_name := [] } := by
  unfold insertSpanIfAbsent at h
  split at h
  · exact Or.inl h
  · rcases List.mem_append.mp h with hm | hm
    · exact Or.inl hm
    · right
      simpa using hm

theorem insert_ids (rows : List SpanRow) (i tr : Int) (t : TimeRange) :
    (insertSpanIfAbsent rows i tr t).map (·.id) =
      if rows.any (fun r => r.id = i) then rows.map (·.id)
      else rows.map (·.id) ++ [i] := by
  unfold insertSpanIfAbsent
  split
  · rfl
  · simp

theorem any_of_lookup_some (rows : List SpanRow) (i : Int) (r : SpanRow)
    (h : rowLookup rows i = some r) : rows.any (fun x => x.id = i) = true := by
  unfold rowLookup at h
  have hp := List.find?_some h
  have hm := List.mem_of_find?_eq_some h
  exact List.any_eq_true.mpr ⟨r, hm, hp⟩

theorem rowLookup_insert_of_some (rows : List SpanRow) (i tr : Int) (t : TimeRange)
    (j : Int) (r : SpanRow) (h : rowLookup rows j = some r) :
    rowLookup (insertSpanIfAbsent rows i tr t) j = some r := by
  unfold insertSpanIfAbsent
  split
  · exact h
  · unfold rowLookup at h ⊢
    exact find?_append_some _ _ _ _ h

theorem rowLookup_insert_of_ne (rows : List SpanRow) (i tr : Int) (t : TimeRange)
    (j : Int) (hj : j ≠ i) :
    rowLookup (insertSpanIfAbsent rows i tr t) j = rowLookup rows j := by
  unfold insertSpanIfAbsent
  split
  · rfl
  · match hfind : rowLookup rows j with
    | some r =>
        unfold rowLookup at hfind ⊢
        exact find?_append_some _ _ _ _ hfind
    | none =>
        unfold rowLookup at hfind ⊢
        rw [find?_append_none _ _ _ hfind]
        rw [List.find?_cons_of_neg _ (by simp; omega)]
        rfl

theorem lookup_of_mem_nodup (rows : List SpanRow) (row : SpanRow)
    (hnd : (rows.map (·.id)).Nodup) (hm : row ∈ rows) :
    rowLookup rows row.id = some row := by
  induction rows with
  | nil => simp at hm
  | cons r rest ih =>
      rw [List.map_cons, List.nodup_cons] at hnd
      rcases List.mem_cons.mp hm with rfl | hmem
      · unfold rowLookup
        rw [List.find?_cons_of_pos _ (by simp)]
      · have hne : r.id ≠ row.id := by
          intro hc
          exact hnd.1 (hc ▸ List.mem_map_of_mem (·.id) hmem)
        unfold rowLookup at *
        rw [List.find?_cons_of_neg _ (by simpa using hne)]
        exact ih hnd.2 hmem

theorem filter_true_of_all {α} (p : α → Bool) (l : List α) (h : ∀ a ∈ l, p a = true) :
    l.filter p = l := by
  induction l with
  | nil => rfl
  | cons x rest ih =>
      rw [List.filter_cons_of_pos (h x (by simp)), ih fun a ha => h a (by simp [ha])]

theorem filter_false_of_all {α} (p : α → Bool) (l : List α) (h : ∀ a ∈ l, p a = false) :
    l.filter p = [] := by
  induction l with
  | nil => rfl
  | cons x rest ih =>
      rw [List.filter_cons_of_neg (by simp [h x (by simp)]),
        ih fun a ha => h a (by simp [ha])]

theorem any_id_iff_mem (rows : List SpanRow) (i : Int) :
    rows.any (fun r => r.id = i) = true ↔ i ∈ rows.map (·.id) := by
  simp [List.any_eq_true]

theorem tagSet_fresh (m : List (Str × Value)) (k : Str) (v : Value)
    (h : k ∉ m.map Prod.fst) : tagSet m k v = m ++ [(k, v)] := by
  induction m with
  | nil => rfl
  | cons kv rest ih =>
      obtain ⟨k', v'⟩ := kv
      simp at h
      unfold tagSet
      rw [if_neg (fun hc => h.1 hc.symm), ih (by simpa using h.2)]
      rfl

theorem foldl_tagSet_fresh (es : List (Str × Value)) (acc : List (Str × Value))
    (hdisj : ∀ kv ∈ es, kv.1 ∉ acc.map Prod.fst)
    (hnd : (es.map Prod.fst).Nodup) :
    es.foldl (fun m kv => tagSet m kv.1 kv.2) acc = acc ++ es := by
  induction es generalizing acc with
  | nil => simp
  | cons kv rest ih =>
      simp only [List.foldl_cons]
      rw [tagSet_fresh acc kv.1 kv.2 (hdisj kv (by simp))]
      rw [List.map_cons, List.nodup_cons] at hnd
      rw [ih (acc ++ [(kv.1, kv.2)])]
      · simp
      · intro kv' hkv'
        simp only [List.map_append, List.mem_append]
        rintro (hc | hc)
        · exact hdisj kv' (by simp [hkv']) hc
        · simp at hc
          exact hnd.1 (hc ▸ List.mem_map_of_mem Prod.fst hkv')
      · exact hnd.2

theorem block_span_ids (q : RawSpan) :
    ∀ t ∈ tagRowsOf q ++ logRowsOf q, t.span_id = toInt64 q.ctx.SpanID := by
  intro t ht
  rcases List.mem_append.mp ht with ht | ht
  · unfold tagRowsOf at ht
    simp at ht
    obtain ⟨kv, w, _, rfl⟩ := ht
    rfl
  · unfold logRowsOf at ht
    simp at ht
    obtain ⟨l, _, rfl⟩ := ht
    rfl

theorem Store_tags (db : DB) (sp : RawSpan) :
    (Store db sp).tags = db.tags ++ tagRowsOf sp ++ logRowsOf sp := by
  unfold Store tagRowsOf logRowsOf
  by_cases hp : sp.ctx.ParentID ≠ 0 <;> simp [hp]

theorem Store_relations (db : DB) (sp : RawSpan) :
    (Store db sp).relations = db.relations ++ relRowsOf sp := by
  unfold Store relRowsOf
  by_cases hp : sp.ctx.ParentID ≠ 0 <;> simp [hp]

theorem Store_spans (db : DB) (sp : RawSpan) :
    (Store db sp).spans =
      if sp.ctx.ParentID ≠ 0 then
        insertSpanIfAbsent
          (insertSpanIfAbsent
            (upsertSpanRows db.spans (toInt64 sp.ctx.SpanID) (toInt64 sp.ctx.TraceID)
              { lo := sp.StartTime, hi := sp.FinishTime } sp.ServiceName sp.OperationName)
            (toInt64 sp.ctx.ParentID) (toInt64 sp.ctx.TraceID) { lo := 0, hi := 0 })
          (toInt64 sp.ctx.TraceID) (toInt64 sp.ctx.TraceID)
          { lo := sp.StartTime, hi := sp.FinishTime }
      else
        upsertSpanRows db.spans (toInt64 sp.ctx.SpanID) (toInt64 sp.ctx.TraceID)
          { lo := sp.StartTime, hi := sp.FinishTime } sp.ServiceName sp.OperationName := by
  unfold Store
  by_cases hp : sp.ctx.ParentID ≠ 0 <;> simp [hp]

theorem nodup_append_singleton {l : List Int} {i : Int} (h : l.Nodup) (hi : i ∉ l) :
    (l ++ [i]).Nodup := by
  simp [List.nodup_append, h, hi]

theorem upsert_nodup (rows : List SpanRow) (i tr : Int) (t : TimeRange) (sv op : Str)
    (h : (rows.map (·.id)).Nodup) :
    ((upsertSpanRows rows i tr t sv op).map (·.id)).Nodup := by
  rw [upsert_ids]
  split
  · exact h
  next hne => exact nodup_append_singleton h hne

theorem insert_nodup (rows : List SpanRow) (i tr : Int) (t : TimeRange)
    (h : (rows.map (·.id)).Nodup) :
    ((insertSpanIfAbsent rows i tr t).map (·.id)).Nodup := by
  rw [insert_ids]
  split
  · exact h
  next hne =>
    exact nodup_append_singleton h fun hm => hne ((any_id_iff_mem _ _).mpr hm)

theorem Store_inv_step (T : Nat) (sps stored : List RawSpan) (db : DB) (sp : RawSpan)
    (htid : sp.ctx.TraceID = T)
    (hsid : toInt64 sp.ctx.SpanID ∈ allIds sps)
    (hspne : ∀ q ∈ stored, toInt64 q.ctx.SpanID ≠ toInt64 sp.ctx.SpanID)
    (hpar : sp.ctx.ParentID ≠ 0 → toInt64 sp.ctx.ParentID ∈ allIds sps)
    (hroot : sp.ctx.ParentID ≠ 0 → toInt64 T ∈ allIds sps)
    (hinv : StoreInv T sps stored db) :
    StoreInv T sps (stored ++ [sp]) (Store db sp) := by
  obtain ⟨ha, hb, hc, hd, he⟩ := hinv
  have htid' : toInt64 sp.ctx.TraceID = toInt64 T := by rw [htid]
  have ha1 : ∀ row ∈ upsertSpanRows db.spans (toInt64 sp.ctx.SpanID)
      (toInt64 sp.ctx.TraceID) { lo := sp.StartTime, hi := sp.FinishTime }
      sp.ServiceName sp.OperationName,
      row.trace_id = toInt64 T ∧ row.id ∈ allIds sps := by
    intro row hrow
    rcases upsert_mem _ _ _ _ _ _ _ hrow with hm | ⟨hid, _, _, _, htr⟩
    · exact ha row hm
    · refine ⟨?_, by rw [hid]; exact hsid⟩
      rcases htr with htr | ⟨r, hr, _, htr⟩
      · rw [htr, htid']
      · rw [htr]
        exact (ha r hr).1
  have hb1 := upsert_nodup db.spans (toInt64 sp.ctx.SpanID) (toInt64 sp.ctx.TraceID)
    { lo := sp.StartTime, hi := sp.FinishTime } sp.ServiceName sp.OperationName hb
  have hl1 : rowLookup (upsertSpanRows db.spans (toInt64 sp.ctx.SpanID)
      (toInt64 sp.ctx.TraceID) { lo := sp.StartTime, hi := sp.FinishTime }
      sp.ServiceName sp.OperationName) (toInt64 sp.ctx.SpanID) = some (spanRowOf sp) := by
    rw [rowLookup_upsert_self]
    cases hfind : rowLookup db.spans (toInt64 sp.ctx.SpanID) with
    | none => rfl
    | some r =>
        unfold rowLookup at hfind
        have hrm := List.mem_of_find?_eq_some hfind
        have hrid : r.id = toInt64 sp.ctx.SpanID := by
          have := List.find?_some hfind
          simpa using this
        have hrtr := (ha r hrm).1
        cases r with
        | mk id tr time svc op =>
            simp at hrid hrtr
            simp [spanRowOf, hrid, hrtr, htid']
  have hdq : ∀ q ∈ stored, rowLookup (upsertSpanRows db.spans (toInt64 sp.ctx.SpanID)
      (toInt64 sp.ctx.TraceID) { lo := sp.StartTime, hi := sp.FinishTime }
      sp.ServiceName sp.OperationName) (toInt64 q.ctx.SpanID) = some (spanRowOf q) := by
    intro q hq
    rw [rowLookup_upsert_ne _ _ _ _ _ _ _ (hspne q hq)]
    exact hc q hq
  refine ⟨?_, ?_, ?_, ?_, ?_⟩
  · rw [Store_spans]
    split
    next hp =>
      intro row hrow
      rcases insert_mem _ _ _ _ _ hrow with hrow | rfl
      · rcases insert_mem _ _ _ _ _ hrow with hrow | rfl
        · exact ha1 row hrow
        · exact ⟨htid', hpar hp⟩
      · refine ⟨htid', ?_⟩
        show toInt64 sp.ctx.TraceID ∈ allIds sps
        rw [htid]
        exact hroot hp
    next hp =>
      exact ha1
  · rw [Store_spans]
    split
    · exact insert_nodup _ _ _ _ (insert_nodup _ _ _ _ hb1)
    · exact hb1
  · intro q hq
    rw [Store_spans]
    rcases List.mem_append.mp hq with hqs | hqs
    · split
      · exact rowLookup_insert_of_some _ _ _ _ _ _
          (rowLookup_insert_of_some _ _ _ _ _ _ (hdq q hqs))
      · exact hdq q hqs
    · have hq' : q = sp := by simpa using hqs
      subst hq'
      split
      · exact rowLookup_insert_of_some _ _ _ _ _ _
          (rowLookup_insert_of_some _ _ _ _ _ _ hl1)
      · exact hl1
  · rw [Store_tags, hd]
    simp [List.flatMap_append]
  · rw [Store_relations, he]
    simp [List.flatMap_append]

theorem StoreInv_empty (T : Nat) (sps : List RawSpan) : StoreInv T sps [] emptyDB := by
  refine ⟨?_, ?_, ?_, rfl, rfl⟩
  · intro row hrow
    simp [emptyDB] at hrow
  · simp [emptyDB]
  · intro q hq
    simp at hq

theorem storeList_inv (T : Nat) (sps : List RawSpan)
    (htid : ∀ sp ∈ sps, sp.ctx.TraceID = T)
    (hpar : ∀ sp ∈ sps, sp.ctx.ParentID ≠ 0 → toInt64 sp.ctx.ParentID ∈ allIds sps)
    (hroot : ∀ sp ∈ sps, sp.ctx.ParentID ≠ 0 → toInt64 T ∈ allIds sps)
    (hnd : (allIds sps).Nodup) :
    ∀ (rest stored : List RawSpan) (db : DB), sps = stored ++ rest →
      StoreInv T sps stored db →
      StoreInv T sps sps (storeList db rest) := by
  intro rest
  induction rest with
  | nil =>
      intro stored db hsplit hinv
      have h2 : stored = sps := by
        rw [hsplit, List.append_nil]
      subst h2
      exact hinv
  | cons sp rest' ih =>
      intro stored db hsplit hinv
      have hsp : sp ∈ sps := by
        rw [hsplit]
        simp
      have hspne : ∀ q ∈ stored, toInt64 q.ctx.SpanID ≠ toInt64 sp.ctx.SpanID := by
        intro q hq hceq
        rw [hsplit] at hnd
        unfold allIds at hnd
        rw [List.map_append] at hnd
        rcases List.nodup_append.mp hnd with ⟨_, _, hdisj⟩
        exact hdisj (List.mem_map_of_mem _ hq)
          (hceq ▸ List.mem_map_of_mem (fun q => toInt64 q.ctx.SpanID)
            (List.mem_cons_self sp rest'))
      have hstep := Store_inv_step T sps stored db sp (htid sp hsp)
        (List.mem_map_of_mem _ hsp) hspne (hpar sp hsp) (hroot sp hsp) hinv
      have hrw : storeList db (sp :: rest') = storeList (Store db sp) rest' := rfl
      rw [hrw]
      exact ih (stored ++ [sp]) (Store db sp) (by rw [hsplit]; simp) hstep

theorem tags_filter_own (sps : List RawSpan) (sp : RawSpan) (hsp : sp ∈ sps)
    (hnd : (sps.map fun q => q.ctx.SpanID).Nodup)
    (h64 : ∀ q ∈ sps, q.ctx.SpanID < 2 ^ 64) :
    ((sps.flatMap fun q => tagRowsOf q ++ logRowsOf q).filter
        fun t => t.span_id = toInt64 sp.ctx.SpanID) =
      tagRowsOf sp ++ logRowsOf sp := by
  induction sps with
  | nil => simp at hsp
  | cons q rest ih =>
      rw [List.flatMap_cons, List.filter_append]
      rw [List.map_cons, List.nodup_cons] at hnd
      rcases List.mem_cons.mp hsp with rfl | hmem
      · have hkeep : ((tagRowsOf sp ++ logRowsOf sp).filter
            fun t => t.span_id = toInt64 sp.ctx.SpanID) = tagRowsOf sp ++ logRowsOf sp := by
          apply filter_true_of_all
          intro t ht
          simp [block_span_ids sp t ht]
        have hkill : ((rest.flatMap fun q => tagRowsOf q ++ logRowsOf q).filter
            fun t => t.span_id = toInt64 sp.ctx.SpanID) = [] := by
          apply filter_false_of_all
          intro t ht
          obtain ⟨q', hq', ht'⟩ := List.mem_flatMap.mp ht
          have hts := block_span_ids q' t ht'
          simp [hts]
          intro hc
          have hq64 := h64 q' (by simp [hq'])
          have hs64 := h64 sp (by simp)
          exact hnd.1 ((toInt64_inj _ _ hq64 hs64 hc) ▸ List.mem_map_of_mem _ hq')
        rw [hkeep, hkill, List.append_nil]
      · have hkill : ((tagRowsOf q ++ logRowsOf q).filter
            fun t => t.span_id = toInt64 sp.ctx.SpanID) = [] := by
          apply filter_false_of_all
          intro t ht
          have hts := block_span_ids q t ht
          simp [hts]
          intro hc
          have hq64 := h64 q (by simp)
          have hs64 := h64 sp (by simp [hmem])
          exact hnd.1 ((toInt64_inj _ _ hq64 hs64 hc).symm ▸ List.mem_map_of_mem _ hmem)
        rw [hkill, List.nil_append]
        exact ih hmem hnd.2 fun x hx => h64 x (by simp [hx])

theorem scanSpanTag_partial (s : SpanRow) (tl : List (Str × Value) × List LogData)
    (t : TagRow) :
    scanSpanTag (partialSpan s tl) (some (t.key, t.value, t.time))
      = partialSpan s (tlStep tl t) := by
  unfold scanSpanTag tlStep partialSpan
  by_cases hk : t.key = []
  · simp [hk]
  · cases htt : t.time <;> simp [hk]

theorem scanStep_same (s : SpanRow) (tl : List (Str × Value) × List LogData)
    (acc1 : List RawSpan) (t : TagRow) :
    scanStep (s.id, partialSpan s tl, acc1) (joinRowOf s t)
      = (s.id, partialSpan s (tlStep tl t), acc1) := by
  have hbase : scanSpanBase (s.id, partialSpan s tl, acc1) (joinRowOf s t)
      = partialSpan s tl := by
    unfold scanSpanBase joinRowOf partialSpan
    simp
  unfold scanStep scanAcc
  rw [hbase]
  have htag : (joinRowOf s t).tag = some (t.key, t.value, t.time) := rfl
  rw [htag, scanSpanTag_partial]
  have hid : (joinRowOf s t).spanID = s.id := rfl
  simp [hid]

theorem foldl_scan_same (s : SpanRow) (ts : List TagRow)
    (tl : List (Str × Value) × List LogData) (acc1 : List RawSpan) :
    (ts.map (joinRowOf s)).foldl scanStep (s.id, partialSpan s tl, acc1)
      = (s.id, partialSpan s (ts.foldl tlStep tl), acc1) := by
  induction ts generalizing tl with
  | nil => rfl
  | cons t rest ih =>
      simp only [List.map_cons, List.foldl_cons, scanStep_same]
      exact ih (tlStep tl t)

theorem rowsForSpan_eq (tags : List TagRow) (s : SpanRow) :
    rowsForSpan tags s =
      if (tags.filter fun t => t.span_id = s.id).isEmpty then
        [{ spanID := s.id, traceID := s.trace_id, time := s.time, svc := s.service_name,
           op := s.operation_name, tag := none }]
      else (tags.filter fun t => t.span_id = s.id).map (joinRowOf s) := rfl

theorem scanStep_first (s : SpanRow) (prev : Int) (cur : RawSpan) (acc : List RawSpan)
    (t : TagRow) (hne : s.id ≠ prev) :
    scanStep (prev, cur, acc) (joinRowOf s t)
      = (s.id, partialSpan s (tlStep ([], []) t),
         acc ++ if prev ≠ 0 then [cur] else []) := by
  have hbase : scanSpanBase (prev, cur, acc) (joinRowOf s t) = partialSpan s ([], []) := by
    unfold scanSpanBase joinRowOf partialSpan emptyRawSpan
    simp [hne]
  unfold scanStep scanAcc
  rw [hbase]
  have htag : (joinRowOf s t).tag = some (t.key, t.value, t.time) := rfl
  rw [htag, scanSpanTag_partial]
  have hid : (joinRowOf s t).spanID = s.id := rfl
  simp only [hid]
  rw [if_pos hne]
  by_cases hp : prev ≠ 0
  · rw [if_pos ⟨hne, hp⟩, if_pos hp]
  · rw [if_neg (fun hc => hp hc.2), if_neg hp, List.append_nil]

theorem scanSpanTag_none (x : RawSpan) : scanSpanTag x none = x := rfl

theorem scanStep_pad (s : SpanRow) (prev : Int) (cur : RawSpan) (acc : List RawSpan)
    (hne : s.id ≠ prev) :
    scanStep (prev, cur, acc)
      { spanID := s.id, traceID := s.trace_id, time := s.time, svc := s.service_name,
        op := s.operation_name, tag := none }
      = (s.id, partialSpan s ([], []), acc ++ if prev ≠ 0 then [cur] else []) := by
  have hbase : scanSpanBase (prev, cur, acc)
      { spanID := s.id, traceID := s.trace_id, time := s.time, svc := s.service_name,
        op := s.operation_name, tag := none } = partialSpan s ([], []) := by
    unfold scanSpanBase partialSpan emptyRawSpan
    simp [hne]
  unfold scanStep scanAcc
  rw [hbase]
  have htag : (⟨s.id, s.trace_id, s.time, s.service_name, s.operation_name, none⟩ : JoinRow).tag = none := rfl
  rw [htag, scanSpanTag_none]
  have hid : (⟨s.id, s.trace_id, s.time, s.service_name, s.operation_name, none⟩ : JoinRow).spanID = s.id := rfl
  simp only [hid]
  rw [if_pos hne]
  by_cases hp : prev ≠ 0
  · rw [if_pos ⟨hne, hp⟩, if_pos hp]
  · rw [if_neg (fun hc => hp hc.2), if_neg hp, List.append_nil]

theorem foldl_scan_block (tags : List TagRow) (s : SpanRow) (prev : Int) (cur : RawSpan)
    (acc : List RawSpan) (hne : s.id ≠ prev) :
    (rowsForSpan tags s).foldl scanStep (prev, cur, acc)
      = (s.id, reconstructSpan tags s, acc ++ if prev ≠ 0 then [cur] else []) := by
  rw [rowsForSpan_eq]
  unfold reconstructSpan spanTL
  cases hts : tags.filter fun t => t.span_id = s.id with
  | nil =>
      rw [if_pos (by simp : ([] : List TagRow).isEmpty = true)]
      simp only [List.foldl_cons, List.foldl_nil]
      rw [scanStep_pad s prev cur acc hne]
  | cons t rest =>
      rw [if_neg (by simp)]
      simp only [List.map_cons, List.foldl_cons]
      rw [scanStep_first s prev cur acc t hne, foldl_scan_same]

theorem scanSpans_blocks (tags : List TagRow) (ss : List SpanRow) :
    ∀ (prev : Int) (cur : RawSpan) (acc : List RawSpan),
      (prev :: ss.map (·.id)).Nodup →
      (∀ s ∈ ss, s.id ≠ 0 ∧ fromInt64 s.id ≠ 0) →
      (cur.ctx.SpanID ≠ 0 ↔ prev ≠ 0) →
      scanSpansOut ((ss.flatMap (rowsForSpan tags)).foldl scanStep (prev, cur, acc))
        = (acc ++ if prev ≠ 0 then [cur] else []) ++ ss.map (reconstructSpan tags) := by
  induction ss with
  | nil =>
      intro prev cur acc hnd hz hcur
      simp only [List.flatMap_nil, List.foldl_nil, List.map_nil, List.append_nil]
      unfold scanSpansOut
      by_cases hp : prev ≠ 0
      · rw [if_pos (hcur.mpr hp), if_pos hp]
      · rw [if_neg (fun hc => hp (hcur.mp hc)), if_neg hp, List.append_nil]
  | cons s rest ih =>
      intro prev cur acc hnd hz hcur
      rw [List.flatMap_cons, List.foldl_append]
      rw [List.map_cons, List.nodup_cons] at hnd
      have hne : s.id ≠ prev := fun hc => hnd.1 (hc ▸ List.mem_cons_self s.id _)
      rw [foldl_scan_block tags s prev cur acc hne]
      have hs := hz s (by simp)
      have hcur' : (reconstructSpan tags s).ctx.SpanID ≠ 0 ↔ s.id ≠ 0 := by
        have hrs : (reconstructSpan tags s).ctx.SpanID = fromInt64 s.id := rfl
        rw [hrs]
        exact iff_of_true hs.2 hs.1
      rw [ih s.id (reconstructSpan tags s) (acc ++ if prev ≠ 0 then [cur] else [])
        hnd.2 (fun q hq => hz q (by simp [hq])) hcur']
      rw [if_pos hs.1]
      simp

theorem foldl_tl_tags (tid sid : Int) (tags : List (Str × Value))
    (hkeys : ∀ kv ∈ tags, kv.1 ≠ []) (acc : List (Str × Value)) (ls : List LogData) :
    (tags.map (tagRowKV tid sid)).foldl tlStep (acc, ls)
      = (tags.foldl (fun a kv => tagSet a kv.1 (.vStr (storeValue kv.2))) acc, ls) := by
  induction tags generalizing acc with
  | nil => rfl
  | cons kv rest ih =>
      simp only [List.map_cons, List.foldl_cons]
      have hstep : tlStep (acc, ls) (tagRowKV tid sid kv)
          = (tagSet acc kv.1 (.vStr (storeValue kv.2)), ls) := by
        unfold tlStep tagRowKV
        simp [hkeys kv (by simp)]
      rw [hstep]
      exact ih (fun x hx => hkeys x (by simp [hx])) _

theorem foldl_tl_logs (tid sid : Int) (logs : List LogData)
    (hev : ∀ l ∈ logs, l.Event ≠ []) (acc : List (Str × Value)) (ls : List LogData) :
    (logs.map (logRowL tid sid)).foldl tlStep (acc, ls)
      = (acc, ls ++ logs.map logOut) := by
  induction logs generalizing ls with
  | nil => simp
  | cons l rest ih =>
      simp only [List.map_cons, List.foldl_cons]
      have hstep : tlStep (acc, ls) (logRowL tid sid l) = (acc, ls ++ [logOut l]) := by
        unfold tlStep logRowL logOut
        simp [hev l (by simp)]
      rw [hstep, ih (fun x hx => hev x (by simp [hx])) _]
      simp

theorem recon_readBack (sps : List RawSpan) (sp : RawSpan) (hsp : sp ∈ sps)
    (hnd : (sps.map fun q => q.ctx.SpanID).Nodup)
    (h64 : ∀ q ∈ sps, q.ctx.SpanID < 2 ^ 64)
    (hT64 : sp.ctx.TraceID < 2 ^ 64)
    (hkeys : ∀ kv ∈ sp.Tags, kv.1 ≠ [])
    (hknd : (sp.Tags.map Prod.fst).Nodup)
    (hev : ∀ l ∈ sp.Logs, l.Event ≠ []) :
    reconstructSpan (sps.flatMap fun q => tagRowsOf q ++ logRowsOf q) (spanRowOf sp)
      = readBack sp := by
  unfold reconstructSpan
  have hid : (spanRowOf sp).id = toInt64 sp.ctx.SpanID := rfl
  simp only [hid]
  rw [tags_filter_own sps sp hsp hnd h64]
  unfold spanTL
  rw [List.foldl_append]
  have htr : tagRowsOf sp
      = sp.Tags.map (tagRowKV (toInt64 sp.ctx.TraceID) (toInt64 sp.ctx.SpanID)) := rfl
  rw [htr, foldl_tl_tags _ _ _ hkeys]
  have hlr : logRowsOf sp
      = sp.Logs.map (logRowL (toInt64 sp.ctx.TraceID) (toInt64 sp.ctx.SpanID)) := rfl
  rw [hlr, foldl_tl_logs _ _ _ hev]
  have h2 : sp.Tags.foldl (fun a kv => tagSet a kv.1 (Value.vStr (storeValue kv.2))) []
      = (sp.Tags.map fun kv => (kv.1, Value.vStr (storeValue kv.2))).foldl
          (fun m kv => tagSet m kv.1 kv.2) [] := by
    rw [List.foldl_map]
  have h3 := foldl_tagSet_fresh (sp.Tags.map fun kv => (kv.1, Value.vStr (storeValue kv.2)))
    [] (by simp) (by
      have hm : ((sp.Tags.map fun kv => (kv.1, Value.vStr (storeValue kv.2))).map
          Prod.fst) = sp.Tags.map Prod.fst := by
        simp [List.map_map, Function.comp]
      rw [hm]
      exact hknd)
  rw [h2, h3]
  unfold partialSpan readBack spanRowOf
  simp [fromInt64_toInt64 _ hT64, fromInt64_toInt64 _ (h64 sp hsp), logOut]

theorem flatMap_congr_mem {α β} (l : List α) (f g : α → List β)
    (h : ∀ a ∈ l, f a = g a) : l.flatMap f = l.flatMap g := by
  induction l with
  | nil => rfl
  | cons a rest ih =>
      rw [List.flatMap_cons, List.flatMap_cons, h a (by simp),
        ih fun x hx => h x (by simp [hx])]

/-- C3: storing the spans of one trace and reading the trace back by id
returns every stored span (up to the row order the database chooses)
with its ids, names, times, tags and logs intact — tag and log values
come back stringified, and the `ParentID`, `Flags` and `Baggage` fields
of the contexts are not persisted in the `spans` table and come back as
zero — together with one `parent` relation per non-root span. -/
theorem C3_store_trace_roundtrip (T : Nat) (sps : List RawSpan)
    (hT0 : T ≠ 0) (hT64 : T < 2 ^ 64)
    (htid : ∀ sp ∈ sps, sp.ctx.TraceID = T)
    (hsid0 : ∀ sp ∈ sps, sp.ctx.SpanID ≠ 0)
    (hsid64 : ∀ sp ∈ sps, sp.ctx.SpanID < 2 ^ 64)
    (hnd : (sps.map fun sp => sp.ctx.SpanID).Nodup)
    (hpar : ∀ sp ∈ sps, sp.ctx.ParentID = 0 ∨
      sp.ctx.ParentID ∈ sps.map fun q => q.ctx.SpanID)
    (hroot : (∃ sp ∈ sps, sp.ctx.ParentID ≠ 0) → T ∈ sps.map fun q => q.ctx.SpanID)
    (htags : ∀ sp ∈ sps, (∀ kv ∈ sp.Tags, kv.1 ≠ []) ∧ (sp.Tags.map Prod.fst).Nodup)
    (hlogs : ∀ sp ∈ sps, ∀ l ∈ sp.Logs, l.Event ≠ []) :
    (traceByID (storeList emptyDB sps) T).TraceID = T ∧
    (traceByID (storeList emptyDB sps) T).Spans.Perm (sps.map readBack) ∧
    (traceByID (storeList emptyDB sps) T).Relations = sps.flatMap parentRelOf := by
  have hnd' : (allIds sps).Nodup := by
    have heq : allIds sps = (sps.map fun q => q.ctx.SpanID).map toInt64 := by
      unfold allIds
      rw [List.map_map]
      rfl
    rw [heq]
    apply hnd.map_on
    intro x hx y hy hxy
    obtain ⟨qx, hqx, rfl⟩ := List.mem_map.mp hx
    obtain ⟨qy, hqy, rfl⟩ := List.mem_map.mp hy
    exact toInt64_inj _ _ (hsid64 qx hqx) (hsid64 qy hqy) hxy
  have hInv := storeList_inv T sps htid
    (by
      intro sp hsp hp
      rcases hpar sp hsp with h0 | hm
      · exact absurd h0 hp
      · obtain ⟨q, hq, hqe⟩ := List.mem_map.mp hm
        unfold allIds
        rw [← hqe]
        exact List.mem_map_of_mem _ hq)
    (by
      intro sp hsp hp
      have hm := hroot ⟨sp, hsp, hp⟩
      obtain ⟨q, hq, hqe⟩ := List.mem_map.mp hm
      unfold allIds
      rw [← hqe]
      exact List.mem_map_of_mem _ hq)
    hnd' sps [] emptyDB rfl (StoreInv_empty T sps)
  obtain ⟨hga, hgb, hgc, hgd, hge⟩ := hInv
  have hmemA : ∀ sp ∈ sps, spanRowOf sp ∈ (storeList emptyDB sps).spans := by
    intro sp hsp
    have h := hgc sp hsp
    unfold rowLookup at h
    exact List.mem_of_find?_eq_some h
  have hrowB : ∀ row ∈ (storeList emptyDB sps).spans, ∃ sp ∈ sps, row = spanRowOf sp := by
    intro row hrow
    obtain ⟨_, hidmem⟩ := hga row hrow
    unfold allIds at hidmem
    obtain ⟨sp, hsp, hide⟩ := List.mem_map.mp hidmem
    refine ⟨sp, hsp, ?_⟩
    have h1 := lookup_of_mem_nodup _ row hgb hrow
    have h2 := hgc sp hsp
    rw [hide] at h2
    rw [h1] at h2
    exact Option.some.inj h2
  have hndrows : (storeList emptyDB sps).spans.Nodup := hgb.of_map _
  have hids : (sps.map spanRowOf).map (·.id) = allIds sps := by
    rw [List.map_map]
    rfl
  have hndmap : (sps.map spanRowOf).Nodup := by
    have h : ((sps.map spanRowOf).map (·.id)).Nodup := by
      rw [hids]
      exact hnd'
    exact h.of_map _
  have hperm : (storeList emptyDB sps).spans.Perm (sps.map spanRowOf) := by
    rw [List.perm_ext_iff_of_nodup hndrows hndmap]
    intro row
    constructor
    · intro h
      obtain ⟨sp, hsp, rfl⟩ := hrowB row h
      exact List.mem_map_of_mem _ hsp
    · intro h
      obtain ⟨sp, hsp, rfl⟩ := List.mem_map.mp h
      exact hmemA sp hsp
  have hfilter : ((storeList emptyDB sps).spans.filter fun s => s.trace_id = toInt64 T)
      = (storeList emptyDB sps).spans := by
    apply filter_true_of_all
    intro row hrow
    simp [(hga row hrow).1]
  have hssperm : (((storeList emptyDB sps).spans.filter
      fun s => s.trace_id = toInt64 T).mergeSort spanRowLE).Perm (sps.map spanRowOf) := by
    rw [hfilter]
    exact (List.mergeSort_perm _ _).trans hperm
  have hssmem : ∀ s ∈ ((storeList emptyDB sps).spans.filter
      fun s => s.trace_id = toInt64 T).mergeSort spanRowLE, ∃ sp ∈ sps, s = spanRowOf sp := by
    intro s hs
    have h := hssperm.mem_iff.mp hs
    obtain ⟨sp, hsp, rfl⟩ := List.mem_map.mp h
    exact ⟨sp, hsp, rfl⟩
  have hssids : ((((storeList emptyDB sps).spans.filter
      fun s => s.trace_id = toInt64 T).mergeSort spanRowLE).map (·.id)).Nodup := by
    have h := hssperm.map (·.id)
    rw [h.nodup_iff, hids]
    exact hnd'
  have hssz : ∀ s ∈ ((storeList emptyDB sps).spans.filter
      fun s => s.trace_id = toInt64 T).mergeSort spanRowLE,
      s.id ≠ 0 ∧ fromInt64 s.id ≠ 0 := by
    intro s hs
    obtain ⟨sp, hsp, rfl⟩ := hssmem s hs
    constructor
    · exact toInt64_ne_zero _ (hsid0 sp hsp) (hsid64 sp hsp)
    · show fromInt64 (toInt64 sp.ctx.SpanID) ≠ 0
      rw [fromInt64_toInt64 _ (hsid64 sp hsp)]
      exact hsid0 sp hsp
  have hnd0 : ((0 : Int) :: ((((storeList emptyDB sps).spans.filter
      fun s => s.trace_id = toInt64 T).mergeSort spanRowLE).map (·.id))).Nodup := by
    rw [List.nodup_cons]
    refine ⟨?_, hssids⟩
    intro hmem
    obtain ⟨s, hs, hsid⟩ := List.mem_map.mp hmem
    exact (hssz s hs).1 hsid
  have hscan := scanSpans_blocks (storeList emptyDB sps).tags
    (((storeList emptyDB sps).spans.filter fun s => s.trace_id = toInt64 T).mergeSort
      spanRowLE) 0 emptyRawSpan [] hnd0 hssz (by simp [emptyRawSpan])
  refine ⟨rfl, ?_, ?_⟩
  · have hSp : (traceByID (storeList emptyDB sps) T).Spans
        = scanSpans ((((storeList emptyDB sps).spans.filter
            fun s => s.trace_id = toInt64 T).mergeSort spanRowLE).flatMap
          (rowsForSpan (storeList emptyDB sps).tags)) := rfl
    rw [hSp]
    unfold scanSpans
    rw [hscan]
    have h0 : ¬((0 : Int) ≠ 0) := by omega
    rw [if_neg h0, List.append_nil, List.nil_append]
    have hmap := hssperm.map (reconstructSpan (storeList emptyDB sps).tags)
    have hpoint : (sps.map spanRowOf).map (reconstructSpan (storeList emptyDB sps).tags)
        = sps.map readBack := by
      rw [List.map_map]
      apply List.map_congr_left
      intro sp hsp
      show reconstructSpan (storeList emptyDB sps).tags (spanRowOf sp) = readBack sp
      rw [hgd]
      exact recon_readBack sps sp hsp hnd hsid64 (by rw [htid sp hsp]; exact hT64)
        (htags sp hsp).1 (htags sp hsp).2 (hlogs sp hsp)
    rw [hpoint] at hmap
    exact hmap
  · have hRel : (traceByID (storeList emptyDB sps) T).Relations
        = relationsForTrace (storeList emptyDB sps) (toInt64 T) := rfl
    rw [hRel]
    unfold relationsForTrace
    have hkeep : ((storeList emptyDB sps).relations.filter fun r =>
        (storeList emptyDB sps).spans.any fun s => s.id = r.span1_id ∧ s.trace_id = toInt64 T)
        = (storeList emptyDB sps).relations := by
      apply filter_true_of_all
      intro r hr
      rw [hge] at hr
      obtain ⟨sp, hsp, hrsp⟩ := List.mem_flatMap.mp hr
      unfold relRowsOf at hrsp
      by_cases hp : sp.ctx.ParentID ≠ 0
      · rw [if_pos hp] at hrsp
        simp at hrsp
        subst hrsp
        rcases hpar sp hsp with h0 | hm
        · exact absurd h0 hp
        · obtain ⟨q, hq, hqe⟩ := List.mem_map.mp hm
          refine List.any_eq_true.mpr ⟨spanRowOf q, hmemA q hq, ?_⟩
          simp [spanRowOf, hqe, htid q hq]
      · rw [if_neg hp] at hrsp
        simp at hrsp
    rw [hkeep, hge, List.map_flatMap]
    apply flatMap_congr_mem
    intro sp hsp
    unfold relRowsOf parentRelOf
    by_cases hp : sp.ctx.ParentID ≠ 0
    · rw [if_pos hp, if_pos hp]
      have hp64 : sp.ctx.ParentID < 2 ^ 64 := by
        rcases hpar sp hsp with h0 | hm
        · exact absurd h0 hp
        · obtain ⟨q, hq, hqe⟩ := List.mem_map.mp hm
          rw [← hqe]
          exact hsid64 q hq
      simp [fromInt64_toInt64 _ hp64, fromInt64_toInt64 _ (hsid64 sp hsp)]
    · rw [if_neg hp, if_neg hp]
      rfl

/-- C3 counterexample: the claim says all RawSpan fields round-trip,
including SpanContext fields such as Flags, but the `spans` table has
no flags, parent-id or baggage columns: a span stored with `Flags = 1`
comes back from `TraceByID` with `Flags = 0`, so the returned span list
is not the stored one. -/
theorem C3_flags_counterexample :
    (traceByID (Store emptyDB flaggedSpan) 5).Spans ≠ [flaggedSpan] ∧
    (traceByID (Store emptyDB flaggedSpan) 5).Spans
      = [{ flaggedSpan with ctx := { flaggedSpan.ctx with Flags := 0 } }] := by
  have key : (traceByID (Store emptyDB flaggedSpan) 5).Spans
      = [{ flaggedSpan with ctx := { flaggedSpan.ctx with Flags := 0 } }] := by
    have h1 : ((Store emptyDB flaggedSpan).spans.filter fun s => s.trace_id = toInt64 5)
        = [spanRowOf flaggedSpan] := by decide
    show scanSpans ((((Store emptyDB flaggedSpan).spans.filter
        fun s => s.trace_id = toInt64 5).mergeSort spanRowLE).flatMap
      (rowsForSpan (Store emptyDB flaggedSpan).tags)) = _
    rw [h1, List.mergeSort_singleton]
    decide
  refine ⟨?_, key⟩
  rw [key]
  decide

/-- Witness for C3: the S5 scenario — root span 10 (SpanID = TraceID),
child 11 and grandchild 12 in trace 10, carrying a tag, a log and
another tag — satisfies every hypothesis of the round-trip theorem. -/
theorem C3_store_trace_roundtrip_witness :
    (traceByID (storeList emptyDB s5Spans) 10).TraceID = 10 ∧
    (traceByID (storeList emptyDB s5Spans) 10).Spans.Perm (s5Spans.map readBack) ∧
    (traceByID (storeList emptyDB s5Spans) 10).Relations = s5Spans.flatMap parentRelOf :=
  C3_store_trace_roundtrip 10 s5Spans (by decide) (by decide) (by decide) (by decide)
    (by decide) (by decide) (by decide) (by decide) (by decide) (by decide)

end Tracer
